import Mathlib

/-!
# Verification of the nox HTTP server core

Shallow embedding of the request-processing core of the `nox` repository
(router, plugin manager / hook dispatcher, proxy handler, session manager,
auth provider, error rendering), translated from the Rust sources under
`src/src_ref/`, together with theorems settling the specification claims.

Conventions of the embedding:
* `HashMap`s are modelled as association lists, `Vec`s as `List`s.
* Async functions perform no concurrency inside one request; they are
  modelled as pure functions; `&mut` parameters are modelled by returning
  the updated value.
* `Result<T, ServerError>` is `Except ServerError T`.
* `SystemTime`/`Duration` are modelled as `Nat` (an abstract clock value
  passed in explicitly where the code calls `SystemTime::now()`).
* Network and randomness effects (proxy forwarding, `rand::random`) are
  modelled as oracle function parameters, and the proxy records a trace of
  the forwarding attempts and sleeps it performs.
-/

namespace Nox

/-- HTTP method (`hyper::Method`), restricted to the verbs the code names. -/
inductive Method where
  | GET | POST | PUT | DELETE | PATCH | HEAD | OPTIONS | CONNECT | TRACE
deriving DecidableEq, Repr

/-- `Method::to_string` / `Display`. -/
def Method.toStr : Method → String
  | .GET => "GET"
  | .POST => "POST"
  | .PUT => "PUT"
  | .DELETE => "DELETE"
  | .PATCH => "PATCH"
  | .HEAD => "HEAD"
  | .OPTIONS => "OPTIONS"
  | .CONNECT => "CONNECT"
  | .TRACE => "TRACE"

/-- A JSON value (`serde_json::Value`); numbers restricted to integers,
which is all the server core ever serialises. -/
inductive Json where
  | null
  | bool (b : Bool)
  | num (n : Int)
  | str (s : String)
  | arr (xs : List Json)
  | obj (fields : List (String × Json))

/-- An HTTP request (`hyper::Request<Body>`): the parts the core reads.
`path` and `query` are the components of `request.uri()`. -/
structure HttpRequest where
  method : Method
  path : String
  query : Option String
  headers : List (String × String)

/-- An HTTP response (`hyper::Response<Body>`); the body is kept as the
JSON value the code serialises into it (serialisation itself is outside
the model), or `Json.str` for opaque bodies. -/
structure HttpResponse where
  status : Nat
  headers : List (String × String)
  body : Json

/-- `ServerError` from `server_error_rs.rs`. Variants wrapping foreign
error types (`hyper::Error`, `std::io::Error`, ...) carry their rendered
message as a `String`. -/
inductive ServerError where
  | Http (msg : String)
  | HttpParse (msg : String)
  | Io (msg : String)
  | Serialization (msg : String)
  | Yaml (msg : String)
  | Config (msg : String)
  | Plugin (msg : String)
  | Auth (msg : String)
  | Session (msg : String)
  | Handler (msg : String)
  | Template (msg : String)
  | Regex (msg : String)
  | UrlParse (msg : String)
  | Request (msg : String)
  | Database (msg : String)
  | Redis (msg : String)
  | FileWatch (msg : String)
  | NotFound (msg : String)
  | BadRequest (msg : String)
  | Unauthorized (msg : String)
  | Forbidden (msg : String)
  | Internal (msg : String)
  | ServiceUnavailable (msg : String)
  | Timeout
  | Other (msg : String)
deriving DecidableEq, Repr

/-- `ServerError::to_status_code` (`server_error_rs.rs`, lines 141-152);
`hyper::StatusCode` is modelled by its numeric value. -/
def ServerError.to_status_code : ServerError → Nat
  | .NotFound _ => 404
  | .BadRequest _ => 400
  | .Unauthorized _ => 401
  | .Forbidden _ => 403
  | .Timeout => 408
  | .ServiceUnavailable _ => 503
  | .Auth _ => 401
  | _ => 500

/-- The `Display` implementation generated by `thiserror`'s `#[error("...")]`
attributes on `ServerError`. -/
def ServerError.message : ServerError → String
  | .Http m => "HTTP error: " ++ m
  | .HttpParse m => "HTTP parse error: " ++ m
  | .Io m => "IO error: " ++ m
  | .Serialization m => "Serialization error: " ++ m
  | .Yaml m => "YAML error: " ++ m
  | .Config m => "Configuration error: " ++ m
  | .Plugin m => "Plugin error: " ++ m
  | .Auth m => "Authentication error: " ++ m
  | .Session m => "Session error: " ++ m
  | .Handler m => "Handler error: " ++ m
  | .Template m => "Template error: " ++ m
  | .Regex m => "Regex error: " ++ m
  | .UrlParse m => "URL parse error: " ++ m
  | .Request m => "Request error: " ++ m
  | .Database m => "Database error: " ++ m
  | .Redis m => "Redis error: " ++ m
  | .FileWatch m => "File watch error: " ++ m
  | .NotFound m => "Not found: " ++ m
  | .BadRequest m => "Bad request: " ++ m
  | .Unauthorized m => "Unauthorized: " ++ m
  | .Forbidden m => "Forbidden: " ++ m
  | .Internal m => "Internal server error: " ++ m
  | .ServiceUnavailable m => "Service unavailable: " ++ m
  | .Timeout => "Timeout"
  | .Other m => "Unknown error: " ++ m

/-- `create_error_response` (`server_core_rs.rs`, lines 248-267): status
from `to_status_code`, a `content-type: application/json` header and the
body `{"error": {"message": ..., "status": ...}}`. The fallback branch of
the response builder is dead (the status and header are always valid). -/
def create_error_response (error : ServerError) : HttpResponse :=
  let status := error.to_status_code
  { status := status
    headers := [("content-type", "application/json")]
    body := Json.obj [("error", Json.obj
      [("message", Json.str error.message), ("status", Json.num status)])] }

/-- `create_not_found_response` (`server_core_rs.rs`, lines 269-282). -/
def create_not_found_response : HttpResponse :=
  { status := 404
    headers := [("content-type", "application/json")]
    body := Json.obj [("error", Json.obj
      [("message", Json.str "Not Found"), ("status", Json.num 404)])] }

/-- The kind-to-status mapping in the words of the specification (section 7):
NotFound to 404, BadRequest to 400, Unauthorized and Auth to 401, Forbidden
to 403, Timeout to 408, ServiceUnavailable to 503, every other kind to 500.
Spec-side definition, for comparison with `ServerError.to_status_code`. -/
def spec_status_mapping (e : ServerError) : Nat :=
  match e with
  | .NotFound _ => 404
  | .BadRequest _ => 400
  | .Unauthorized _ => 401
  | .Auth _ => 401
  | .Forbidden _ => 403
  | .Timeout => 408
  | .ServiceUnavailable _ => 503
  | _ => 500

/-! ## Plugin system (`server_plugins_rs.rs`, `server_plugin_manager_rs.rs`) -/

/-- `PluginHook`: the nine lifecycle points. -/
inductive PluginHook where
  | OnStartup | OnShutdown
  | PreRequest | PostRoute | PreHandler | PostHandler
  | PreResponse | PostResponse
  | OnError
deriving DecidableEq, Repr

/-- `PluginContext`: the per-request metadata bag threaded through hooks. -/
structure PluginContext where
  hook : PluginHook
  path : String
  method : String
  headers : List (String × String)
  query : List (String × String)
  route_params : List (String × String)
  metadata : List (String × Json)
  session_id : Option String
  user_id : Option String

/-- `PluginContext::new`. -/
def PluginContext.new (hook : PluginHook) : PluginContext :=
  { hook := hook, path := "", method := "", headers := [], query := []
    route_params := [], metadata := [], session_id := none, user_id := none }

/-- Hexadecimal digit value, for percent-decoding. -/
def hex_val (c : Char) : Option Nat :=
  if '0' ≤ c ∧ c ≤ '9' then some (c.toNat - '0'.toNat)
  else if 'a' ≤ c ∧ c ≤ 'f' then some (c.toNat - 'a'.toNat + 10)
  else if 'A' ≤ c ∧ c ≤ 'F' then some (c.toNat - 'A'.toNat + 10)
  else none

/-- `urlencoding::decode` on the character level: each `%XX` becomes the
character with code `XX`, everything else is kept (multi-byte UTF-8
percent-sequences are approximated by one character per byte; the claims
never touch them). `none` models a decoding error. -/
def urldecode_chars : List Char → Option (List Char)
  | [] => some []
  | '%' :: a :: b :: rest => do
    let ha ← hex_val a
    let hb ← hex_val b
    let tail ← urldecode_chars rest
    some (Char.ofNat (ha * 16 + hb) :: tail)
  | '%' :: _ => none
  | c :: rest => do
    let tail ← urldecode_chars rest
    some (c :: tail)

/-- `urlencoding::decode(...).unwrap_or_default()` as the code uses it. -/
def urldecode (s : String) : String :=
  match urldecode_chars s.data with
  | some cs => String.mk cs
  | none => ""

/-- `str::split_once(c)`: split at the first occurrence of `c`. -/
def split_once (s : String) (c : Char) : Option (String × String) :=
  match s.data.dropWhile (fun x => x ≠ c) with
  | [] => none
  | _ :: rest => some (String.mk (s.data.takeWhile (fun x => x ≠ c)), String.mk rest)

/-- `PluginContext::from_request`: copies path, method and headers, and
parses the query string (`&`-separated `k=v` pairs, percent-decoded).
Header values are strings in the model, so `to_str` always succeeds. -/
def PluginContext.from_request (hook : PluginHook) (request : HttpRequest) : PluginContext :=
  { PluginContext.new hook with
    path := request.path
    method := request.method.toStr
    headers := request.headers
    query :=
      match request.query with
      | none => []
      | some q =>
        (q.splitOn "&").filterMap fun pair =>
          (split_once pair '=').map fun kv => (urldecode kv.1, urldecode kv.2) }

/-- `PluginResult`: drives the dispatcher's control flow. -/
inductive PluginResult where
  | Continue
  | Stop
  | Error (e : ServerError)
  | Response (r : HttpResponse)

/-- A `Plugin` (trait object): metadata plus the nine hook callbacks.
Callbacks that take a `&mut` request or response return the updated value
alongside the `PluginResult`. -/
structure Plugin where
  name : String
  version : String
  description : String
  priority : Int
  handles_hook : PluginHook → Bool
  on_startup : PluginContext → Except ServerError PluginResult
  on_shutdown : PluginContext → Except ServerError PluginResult
  pre_request : HttpRequest → PluginContext → Except ServerError (PluginResult × HttpRequest)
  post_route : HttpRequest → PluginContext → Except ServerError PluginResult
  pre_handler : HttpRequest → PluginContext → Except ServerError PluginResult
  post_handler : HttpRequest → HttpResponse → PluginContext → Except ServerError (PluginResult × HttpResponse)
  pre_response : HttpResponse → PluginContext → Except ServerError (PluginResult × HttpResponse)
  post_response : HttpResponse → PluginContext → Except ServerError PluginResult
  on_error : ServerError → PluginContext → Except ServerError PluginResult

/-- `PluginManager`: plugin registry, per-hook ordered `(name, priority)`
lists, and the name-to-enabled side table. A hook absent from the
`HashMap` is the empty list. -/
structure PluginManager where
  plugins : List (String × Plugin)
  hook_plugins : PluginHook → List (String × Int)
  enabled_plugins : List (String × Bool)

/-- `PluginManager::new`. -/
def PluginManager.new : PluginManager :=
  { plugins := [], hook_plugins := fun _ => [], enabled_plugins := [] }

/-- `PluginManager::is_plugin_enabled`. -/
def is_plugin_enabled (enabled_plugins : List (String × Bool)) (name : String) : Bool :=
  (enabled_plugins.lookup name).getD false

def PluginManager.is_plugin_enabled (m : PluginManager) (name : String) : Bool :=
  Nox.is_plugin_enabled m.enabled_plugins name

/-- The manager with one hook's plugin list replaced (used to state that an
execution outcome does not depend on that hook's chain). -/
def PluginManager.set_hook (m : PluginManager) (h : PluginHook) (l : List (String × Int)) :
    PluginManager :=
  { m with hook_plugins := fun k => if k = h then l else m.hook_plugins k }

/-- Loop body of `execute_hook_simple` (lines 190-220): walk the hook's
`(name, priority)` list, skip disabled or unregistered plugins, and
interpret the `PluginResult`: Continue and Response proceed, Stop ends the
chain, Error aborts, and a callback `Err` propagates via `?`. -/
def execute_hook_simple_go (plugins : List (String × Plugin))
    (enabled_plugins : List (String × Bool)) (context : PluginContext)
    (callback : Plugin → PluginContext → Except ServerError PluginResult) :
    List (String × Int) → Except ServerError Unit
  | [] => .ok ()
  | (plugin_name, _) :: rest =>
    if is_plugin_enabled enabled_plugins plugin_name = false then
      execute_hook_simple_go plugins enabled_plugins context callback rest
    else
      match plugins.lookup plugin_name with
      | none => execute_hook_simple_go plugins enabled_plugins context callback rest
      | some plugin =>
        match callback plugin context with
        | .error e => .error e
        | .ok .Continue => execute_hook_simple_go plugins enabled_plugins context callback rest
        | .ok .Stop => .ok ()
        | .ok (.Error e) => .error e
        | .ok (.Response _) =>
          execute_hook_simple_go plugins enabled_plugins context callback rest

/-- `PluginManager::execute_hook_simple`. -/
def PluginManager.execute_hook_simple (m : PluginManager) (hook : PluginHook)
    (context : PluginContext)
    (callback : Plugin → PluginContext → Except ServerError PluginResult) :
    Except ServerError Unit :=
  execute_hook_simple_go m.plugins m.enabled_plugins context callback (m.hook_plugins hook)

/-- Loop body of `execute_hook_simple_with_response` (lines 223-250):
as `execute_hook_simple_go`, but `Response(r)` short-circuits with `r`. -/
def execute_hook_with_response_go (plugins : List (String × Plugin))
    (enabled_plugins : List (String × Bool)) (context : PluginContext)
    (callback : Plugin → PluginContext → Except ServerError PluginResult) :
    List (String × Int) → Except ServerError (Option HttpResponse)
  | [] => .ok none
  | (plugin_name, _) :: rest =>
    if is_plugin_enabled enabled_plugins plugin_name = false then
      execute_hook_with_response_go plugins enabled_plugins context callback rest
    else
      match plugins.lookup plugin_name with
      | none => execute_hook_with_response_go plugins enabled_plugins context callback rest
      | some plugin =>
        match callback plugin context with
        | .error e => .error e
        | .ok .Continue => execute_hook_with_response_go plugins enabled_plugins context callback rest
        | .ok .Stop => .ok none
        | .ok (.Error e) => .error e
        | .ok (.Response response) => .ok (some response)

/-- `PluginManager::execute_hook_simple_with_response`. -/
def PluginManager.execute_hook_simple_with_response (m : PluginManager) (hook : PluginHook)
    (context : PluginContext)
    (callback : Plugin → PluginContext → Except ServerError PluginResult) :
    Except ServerError (Option HttpResponse) :=
  execute_hook_with_response_go m.plugins m.enabled_plugins context callback (m.hook_plugins hook)

/-- Loop body of `execute_hook_with_request` (lines 253-281): threads the
mutable request through the callbacks; `Response(r)` short-circuits. -/
def execute_hook_with_request_go (plugins : List (String × Plugin))
    (enabled_plugins : List (String × Bool)) (context : PluginContext)
    (callback : Plugin → HttpRequest → PluginContext →
      Except ServerError (PluginResult × HttpRequest)) :
    List (String × Int) → HttpRequest → Except ServerError (Option HttpResponse × HttpRequest)
  | [], request => .ok (none, request)
  | (plugin_name, _) :: rest, request =>
    if is_plugin_enabled enabled_plugins plugin_name = false then
      execute_hook_with_request_go plugins enabled_plugins context callback rest request
    else
      match plugins.lookup plugin_name with
      | none => execute_hook_with_request_go plugins enabled_plugins context callback rest request
      | some plugin =>
        match callback plugin request context with
        | .error e => .error e
        | .ok (.Continue, request1) =>
          execute_hook_with_request_go plugins enabled_plugins context callback rest request1
        | .ok (.Stop, request1) => .ok (none, request1)
        | .ok (.Error e, _) => .error e
        | .ok (.Response response, request1) => .ok (some response, request1)

/-- `PluginManager::execute_pre_request` (lines 78-86). -/
def PluginManager.execute_pre_request (m : PluginManager) (request : HttpRequest)
    (context : PluginContext) : Except ServerError (Option HttpResponse × HttpRequest) :=
  execute_hook_with_request_go m.plugins m.enabled_plugins context
    (fun plugin req ctx => plugin.pre_request req ctx) (m.hook_plugins .PreRequest) request

/-- `PluginManager::execute_post_route` (lines 89-97). -/
def PluginManager.execute_post_route (m : PluginManager) (request : HttpRequest)
    (context : PluginContext) : Except ServerError (Option HttpResponse) :=
  m.execute_hook_simple_with_response .PostRoute context
    (fun plugin ctx => plugin.post_route request ctx)

/-- `PluginManager::execute_pre_handler` (lines 100-108). -/
def PluginManager.execute_pre_handler (m : PluginManager) (request : HttpRequest)
    (context : PluginContext) : Except ServerError (Option HttpResponse) :=
  m.execute_hook_simple_with_response .PreHandler context
    (fun plugin ctx => plugin.pre_handler request ctx)

/-- Loop of `execute_post_handler` (lines 111-137): threads the mutable
response; a returned `Response(_)` is ignored (treated as Continue). -/
def execute_post_handler_go (plugins : List (String × Plugin))
    (enabled_plugins : List (String × Bool)) (request : HttpRequest)
    (context : PluginContext) :
    List (String × Int) → HttpResponse → Except ServerError HttpResponse
  | [], response => .ok response
  | (plugin_name, _) :: rest, response =>
    if is_plugin_enabled enabled_plugins plugin_name = false then
      execute_post_handler_go plugins enabled_plugins request context rest response
    else
      match plugins.lookup plugin_name with
      | none => execute_post_handler_go plugins enabled_plugins request context rest response
      | some plugin =>
        match plugin.post_handler request response context with
        | .error e => .error e
        | .ok (.Continue, response1) =>
          execute_post_handler_go plugins enabled_plugins request context rest response1
        | .ok (.Stop, response1) => .ok response1
        | .ok (.Error e, _) => .error e
        | .ok (.Response _, response1) =>
          execute_post_handler_go plugins enabled_plugins request context rest response1

/-- `PluginManager::execute_post_handler`. -/
def PluginManager.execute_post_handler (m : PluginManager) (request : HttpRequest)
    (response : HttpResponse) (context : PluginContext) : Except ServerError HttpResponse :=
  execute_post_handler_go m.plugins m.enabled_plugins request context
    (m.hook_plugins .PostHandler) response

/-- Loop of `execute_pre_response` (lines 140-165): same shape as
`execute_post_handler`; a returned `Response(_)` is ignored. -/
def execute_pre_response_go (plugins : List (String × Plugin))
    (enabled_plugins : List (String × Bool)) (context : PluginContext) :
    List (String × Int) → HttpResponse → Except ServerError HttpResponse
  | [], response => .ok response
  | (plugin_name, _) :: rest, response =>
    if is_plugin_enabled enabled_plugins plugin_name = false then
      execute_pre_response_go plugins enabled_plugins context rest response
    else
      match plugins.lookup plugin_name with
      | none => execute_pre_response_go plugins enabled_plugins context rest response
      | some plugin =>
        match plugin.pre_response response context with
        | .error e => .error e
        | .ok (.Continue, response1) =>
          execute_pre_response_go plugins enabled_plugins context rest response1
        | .ok (.Stop, response1) => .ok response1
        | .ok (.Error e, _) => .error e
        | .ok (.Response _, response1) =>
          execute_pre_response_go plugins enabled_plugins context rest response1

/-- `PluginManager::execute_pre_response`. -/
def PluginManager.execute_pre_response (m : PluginManager) (response : HttpResponse)
    (context : PluginContext) : Except ServerError HttpResponse :=
  execute_pre_response_go m.plugins m.enabled_plugins context
    (m.hook_plugins .PreResponse) response

/-- `PluginManager::execute_post_response` (lines 168-176). -/
def PluginManager.execute_post_response (m : PluginManager) (response : HttpResponse)
    (context : PluginContext) : Except ServerError Unit :=
  m.execute_hook_simple .PostResponse context
    (fun plugin ctx => plugin.post_response response ctx)

/-- `PluginManager::execute_startup` (lines 64-68). -/
def PluginManager.execute_startup (m : PluginManager) (context : PluginContext) :
    Except ServerError Unit :=
  m.execute_hook_simple .OnStartup context (fun plugin ctx => plugin.on_startup ctx)

/-- `PluginManager::execute_shutdown` (lines 71-75). -/
def PluginManager.execute_shutdown (m : PluginManager) (context : PluginContext) :
    Except ServerError Unit :=
  m.execute_hook_simple .OnShutdown context (fun plugin ctx => plugin.on_shutdown ctx)

/-- `PluginManager::execute_on_error` (lines 179-187). -/
def PluginManager.execute_on_error (m : PluginManager) (error : ServerError)
    (context : PluginContext) : Except ServerError (Option HttpResponse) :=
  m.execute_hook_simple_with_response .OnError context
    (fun plugin ctx => plugin.on_error error ctx)

/-! ## Router (`server_router_rs.rs`) -/

/-- `HandlerResult` (`server_handlers_rs.rs`, lines 14-18). -/
inductive HandlerResult where
  | Response (response : HttpResponse)
  | NotFound
  | Error (e : ServerError)

/-- A `Handler` (trait object): `handle(&request, &context)`. -/
def Handler : Type := HttpRequest → PluginContext → Except ServerError HandlerResult

/-- `Route` (lines 9-15). -/
structure Route where
  method : Option Method
  path : String
  path_regex : Option String
  priority : Int

/-- `Route::new`. -/
def Route.new (method : Method) (path : String) : Route :=
  { method := some method, path := path, path_regex := none, priority := 100 }

/-- `Route::get`. -/
def Route.get (path : String) : Route := Route.new .GET path

/-- `Route::post`. -/
def Route.post (path : String) : Route := Route.new .POST path

/-- `Route::any`. -/
def Route.any (path : String) : Route :=
  { method := none, path := path, path_regex := none, priority := 100 }

/-- `Route::with_priority`. -/
def Route.with_priority (route : Route) (priority : Int) : Route :=
  { route with priority := priority }

/-- `Route::with_regex`. -/
def Route.with_regex (route : Route) (pattern : String) : Route :=
  { route with path_regex := some pattern }

/-- One piece of the anchored pattern `path_to_regex` produces: a literal
chunk (matched verbatim, which is what `regex::escape` guarantees) or a
named parameter, whose capture group is `[^/]+` (one or more characters,
none of them a slash). -/
inductive PathPiece where
  | lit (cs : List Char)
  | param (name : String)
deriving DecidableEq, Repr

/-- Greedy matching of one parameter: the regex quantifier `[^/]+` first
tries the longest run of non-slash characters and backtracks one character
at a time; `f` matches the remaining pieces against the remaining input. -/
def param_try (name : String)
    (f : List Char → Option (List (String × String))) (input : List Char) :
    Nat → Option (List (String × String))
  | 0 => none
  | k + 1 =>
    match f (input.drop (k + 1)) with
    | some captures => some ((name, String.mk (input.take (k + 1))) :: captures)
    | none => param_try name f input k

/-- The matcher for a compiled `^...$`-anchored piece sequence: the whole
input must be consumed. Returns the named captures on a match. -/
def match_pieces : List PathPiece → List Char → Option (List (String × String))
  | [], input => if input = [] then some [] else none
  | .lit cs :: rest, input =>
    if input.take cs.length = cs then match_pieces rest (input.drop cs.length) else none
  | .param name :: rest, input =>
    param_try name (match_pieces rest) input (input.takeWhile (fun c => c ≠ '/')).length

/-- Single pass of the pattern splitter. `inBrace` records whether the scan
is between a `{` and its closing `}`; `litAcc` and `nameAcc` accumulate the
current literal chunk and parameter name in reverse. A `{` whose `}` never
comes stays literal, as does an empty `{}` — exactly what replacing
`\{([^}]+)\}` leaves untouched. -/
def parse_pieces_go : List Char → Bool → List Char → List Char → List PathPiece
  | [], false, litAcc, _ => if litAcc = [] then [] else [PathPiece.lit litAcc.reverse]
  | [], true, litAcc, nameAcc =>
    [PathPiece.lit (litAcc.reverse ++ '{' :: nameAcc.reverse)]
  | c :: rest, false, litAcc, nameAcc =>
    if c = '{' then parse_pieces_go rest true litAcc []
    else parse_pieces_go rest false (c :: litAcc) nameAcc
  | c :: rest, true, litAcc, nameAcc =>
    if c = '}' then
      if nameAcc = [] then parse_pieces_go rest false ('}' :: '{' :: litAcc) []
      else
        PathPiece.lit litAcc.reverse ::
          PathPiece.param (String.mk nameAcc.reverse) :: parse_pieces_go rest false [] []
    else parse_pieces_go rest true litAcc (c :: nameAcc)

/-- Splitting a path pattern into pieces: the effect of
`regex::escape(path)` followed by replacing every `\{([^}]+)\}` with
`(?P<$1>[^/]+)` and anchoring (lines 157-168). Parameter names that would
not be valid capture-group identifiers make `Regex::new` fail in the
source; the model assumes valid names (the code never registers such a
route). -/
def parse_pieces (cs : List Char) : List PathPiece :=
  parse_pieces_go cs false [] []

/-- A compiled matcher (`regex::Regex` as the router uses it): the anchored
match-and-capture function. -/
def Matcher : Type := String → Option (List (String × String))

/-- `Router::path_to_regex` (lines 157-168): compile a `{param}` pattern
into its anchored matcher. -/
def path_to_regex (path : String) : Matcher :=
  fun p => match_pieces (parse_pieces path.data) p.data

/-- `Router::matches_regex` (lines 139-154): whether the path matches, and
the named captures (all groups of a compiled pattern participate in any
successful anchored match). -/
def matches_regex (regex : Matcher) (path : String) : Bool × List (String × String) :=
  match regex path with
  | some captures => (true, captures)
  | none => (false, [])

/-- One slot of the route table `Vec<(Route, Arc<dyn Handler>, Option<Regex>)>`. -/
structure RouteEntry where
  route : Route
  handler : Handler
  regex : Option Matcher

/-- `RouteMatch` (lines 67-72). -/
structure RouteMatch where
  route : Route
  handler : Handler
  params : List (String × String)

/-- The per-entry test of `find_route`'s loop (lines 111-125): method
compatibility first (`None` is a wildcard), then the path, via the
compiled matcher when there is one, by string equality otherwise. -/
def route_entry_matches (e : RouteEntry) (method : Method) (path : String) :
    Bool × List (String × String) :=
  match e.route.method with
  | some route_method =>
    if route_method ≠ method then (false, [])
    else
      match e.regex with
      | some regex => matches_regex regex path
      | none => (e.route.path = path, [])
  | none =>
    match e.regex with
    | some regex => matches_regex regex path
    | none => (e.route.path = path, [])

/-- The walk of `find_route` (lines 106-136): first match wins. -/
def find_route_go (method : Method) (path : String) :
    List RouteEntry → Option RouteMatch
  | [] => none
  | e :: rest =>
    if (route_entry_matches e method path).1 then
      some { route := e.route, handler := e.handler
             params := (route_entry_matches e method path).2 }
    else find_route_go method path rest

/-- `Router::find_route`. -/
def find_route (routes : List RouteEntry) (request : HttpRequest) : Option RouteMatch :=
  find_route_go request.method request.path routes

/-- Insertion of one element into a priority-sorted list, placed before the
first strictly larger priority (the stable insertion underlying
`sort_insert`'s use below). -/
def sort_insert (e : RouteEntry) : List RouteEntry → List RouteEntry
  | [] => [e]
  | x :: xs =>
    if e.route.priority ≤ x.route.priority then e :: x :: xs
    else x :: sort_insert e xs

/-- `routes.sort_by_key(|(route, _, _)| route.priority)` (line 100):
`Vec::sort_by_key` is a stable sort, and insertion sort realises the
stable sort by priority, so this is extensionally that function. -/
def sort_by_priority (routes : List RouteEntry) : List RouteEntry :=
  routes.foldr sort_insert []

/-- The table mutation of `add_route` (lines 96-100): push, then stable
sort by priority. -/
def register_route_entry (routes : List RouteEntry) (e : RouteEntry) : List RouteEntry :=
  sort_by_priority (routes ++ [e])

/-- `Router::add_route` (lines 86-103). `regex_new` is the external
`regex::Regex::new`, supplying each explicit override pattern its matching
semantics (or a compile error). -/
def add_route (regex_new : String → Except ServerError Matcher)
    (routes : List RouteEntry) (route : Route) (handler : Handler) :
    Except ServerError (List RouteEntry) := do
  let regex : Option Matcher ←
    match route.path_regex with
    | some pattern => do
      let rx ← regex_new pattern
      pure (some rx)
    | none =>
      if route.path.data.contains '{' then pure (some (path_to_regex route.path))
      else pure none
  pure (register_route_entry routes { route := route, handler := handler, regex := regex })

/-- A route table built by successive registrations of the given compiled
entries (each one `add_route`'s push-and-stable-sort step). -/
def register_all (entries : List RouteEntry) : List RouteEntry :=
  entries.foldl register_route_entry []

/-- Spec-side definition of the matching route `find_route` must return,
in the words of the specification: among all routes matching the method
and path, the one with the lowest priority value, ties broken by
registration order. Computed as a left fold over the entries in
registration order, replacing the best candidate only on strictly lower
priority. -/
def spec_best_step (method : Method) (path : String)
    (best : Option RouteMatch) (e : RouteEntry) : Option RouteMatch :=
  if (route_entry_matches e method path).1 then
    match best with
    | none =>
      some { route := e.route, handler := e.handler
             params := (route_entry_matches e method path).2 }
    | some rm =>
      if e.route.priority < rm.route.priority then
        some { route := e.route, handler := e.handler
               params := (route_entry_matches e method path).2 }
      else best
  else best

/-- Spec-side: the lowest-priority, earliest-registered matching route. -/
def spec_best_match (entries : List RouteEntry) (request : HttpRequest) : Option RouteMatch :=
  entries.foldl (spec_best_step request.method request.path) none

theorem spec_best_step_none (method : Method) (path : String) (e : RouteEntry) :
    spec_best_step method path none e =
      if (route_entry_matches e method path).1 then
        some { route := e.route, handler := e.handler
               params := (route_entry_matches e method path).2 }
      else none := rfl

theorem spec_best_step_some (method : Method) (path : String) (rm : RouteMatch)
    (e : RouteEntry) :
    spec_best_step method path (some rm) e =
      if (route_entry_matches e method path).1 then
        if e.route.priority < rm.route.priority then
          some { route := e.route, handler := e.handler
                 params := (route_entry_matches e method path).2 }
        else some rm
      else some rm := rfl

/-! ## Server request pipeline (`server_core_rs.rs`) -/

/-- `Server::handle_request` (lines 129-217): the staged pipeline.
Logging calls are effect-only and elided. The context is created from the
original request; route matching uses the request as mutated by the
PreRequest hooks; the context's `hook` field is updated immediately before
each stage. -/
def handle_request (m : PluginManager) (routes : List RouteEntry)
    (request : HttpRequest) : Except ServerError HttpResponse := do
  let context := PluginContext.from_request .PreRequest request
  let (pre, request) ← m.execute_pre_request request context
  match pre with
  | some response => return response
  | none =>
    let route_match := find_route routes request
    let context := { context with
      route_params := match route_match with
        | some rm => rm.params
        | none => [] }
    let context := { context with hook := .PostRoute }
    match ← m.execute_post_route request context with
    | some response => return response
    | none =>
      let context := { context with hook := .PreHandler }
      match ← m.execute_pre_handler request context with
      | some response => return response
      | none =>
        let response ←
          match route_match with
          | some rm =>
            match ← rm.handler request context with
            | .Response response => pure response
            | .NotFound => pure create_not_found_response
            | .Error e => throw e
          | none => pure create_not_found_response
        let context := { context with hook := .PostHandler }
        let response ← m.execute_post_handler request response context
        let context := { context with hook := .PreResponse }
        let response ← m.execute_pre_response response context
        let context := { context with hook := .PostResponse }
        let _ ← m.execute_post_response response context
        return response

/-- The per-request service of `Server::handle_connection` (lines 103-126):
a successful pipeline result is sent as is; an error is converted by
`create_error_response` and sent. Nothing else runs on the error path. -/
def handle_connection_service (m : PluginManager) (routes : List RouteEntry)
    (request : HttpRequest) : HttpResponse :=
  match handle_request m routes request with
  | .ok response => response
  | .error e => create_error_response e

/-! ## Session manager (`server_session_rs.rs`) -/

/-- `Session` (lines 18-26); times are abstract clock values. -/
structure Session where
  id : String
  user_id : Option String
  data : List (String × Json)
  created_at : Nat
  expires_at : Nat
  last_accessed : Nat

/-- `Session::new` (lines 29-39). -/
def Session.new (id : String) (timeout : Nat) (now : Nat) : Session :=
  { id := id, user_id := none, data := [], created_at := now
    expires_at := now + timeout, last_accessed := now }

/-- `Session::is_expired` (lines 41-43): strictly `now > expires_at`. -/
def Session.is_expired (session : Session) (now : Nat) : Bool :=
  decide (now > session.expires_at)

/-- `Session::refresh` (lines 45-49): `last_accessed := now`,
`expires_at := now + timeout`. -/
def Session.refresh (session : Session) (timeout : Nat) (now : Nat) : Session :=
  { session with last_accessed := now, expires_at := now + timeout }

/-- The `SessionStore` trait operations the manager's `get_session` uses,
over a store state of type `σ` (`&self` store mutation is modelled by
returning the new state). -/
structure SessionStoreOps (σ : Type) where
  get : σ → String → Except ServerError (Option Session)
  save : σ → Session → Except ServerError σ
  delete : σ → String → Except ServerError σ

/-- `MemorySessionStore` (`server_session_memory_rs.rs`): a map from id to
session, as an association list. -/
def MemoryStore : Type := List (String × Session)

/-- `MemorySessionStore`'s `get`/`save`/`delete`. -/
def memory_store_ops : SessionStoreOps MemoryStore :=
  { get := fun store session_id => .ok (store.lookup session_id)
    save := fun store session =>
      .ok ((store.filter (fun kv => kv.1 ≠ session.id)) ++ [(session.id, session)])
    delete := fun store session_id =>
      .ok (store.filter (fun kv => kv.1 ≠ session_id)) }

/-- `SessionManager::get_session` (lines 134-148): a missing session is
`none`; an expired one is deleted from the store and `none` returned;
otherwise the session is refreshed, re-persisted via the store, and
returned. `timeout` is the manager's configured timeout, `now` the clock
at the call. -/
def get_session {σ : Type} (ops : SessionStoreOps σ) (timeout : Nat) (now : Nat)
    (store : σ) (session_id : String) : Except ServerError (Option Session × σ) :=
  match ops.get store session_id with
  | .error e => .error e
  | .ok none => .ok (none, store)
  | .ok (some session) =>
    if session.is_expired now then
      match ops.delete store session_id with
      | .error e => .error e
      | .ok store1 => .ok (none, store1)
    else
      let session := session.refresh timeout now
      match ops.save store session with
      | .error e => .error e
      | .ok store1 => .ok (some session, store1)

/-! ## Proxy handler (`server_proxy_handler_rs.rs`) -/

/-- `UpstreamConfig` (from `server_config_rs.rs`, as the proxy uses it). -/
structure UpstreamConfig where
  name : String
  url : String
  weight : Option Nat
  health_check : Option String

/-- `Upstream` (lines 15-20): config plus the two atomics. -/
structure Upstream where
  config : UpstreamConfig
  healthy : Bool
  request_count : Nat

/-- `Upstream::new` (lines 23-29): starts healthy with count 0. -/
def Upstream.new (config : UpstreamConfig) : Upstream :=
  { config := config, healthy := true, request_count := 0 }

/-- `ProxyConfig` (the fields the handler reads). -/
structure ProxyConfig where
  enabled : Bool
  upstreams : List UpstreamConfig
  timeout : Option Nat
  retry_attempts : Option Nat

/-- `LoadBalancingStrategy` (lines 50-55). -/
inductive LoadBalancingStrategy where
  | RoundRobin | LeastConnections | WeightedRoundRobin | Random

/-- `ProxyHandler` (lines 58-64): the HTTP client itself is an external
effect and carries no modelled state. -/
structure ProxyHandler where
  config : ProxyConfig
  upstreams : List Upstream
  strategy : LoadBalancingStrategy
  current_upstream : Nat

/-- `ProxyHandler::new` (lines 67-86): all upstreams healthy, round-robin
strategy, counter 0. -/
def ProxyHandler.new (config : ProxyConfig) : ProxyHandler :=
  { config := config
    upstreams := config.upstreams.map Upstream.new
    strategy := .RoundRobin
    current_upstream := 0 }

/-- First minimum of a list by a measure (`Iterator::min_by_key`). -/
def min_by_count : List (Nat × Upstream) → Option (Nat × Upstream)
  | [] => none
  | x :: xs =>
    match min_by_count xs with
    | none => some x
    | some y => if x.2.request_count ≤ y.2.request_count then some x else some y

/-- `ProxyHandler::select_upstream` (lines 89-121): filter to the healthy
upstreams; none healthy yields `none`; otherwise pick per strategy.
Returns the index (into the full upstream list) and value of the selected
upstream plus the updated handler (round-robin's `fetch_add`). `rand`
supplies `rand::random::<usize>()` for the Random strategy. -/
def select_upstream (h : ProxyHandler) (rand : Nat) :
    Option (Nat × Upstream) × ProxyHandler :=
  let healthy := (h.upstreams.enum.filter fun iu => iu.2.healthy)
  if hne : healthy.length = 0 then (none, h)
  else
    match h.strategy with
    | .RoundRobin =>
      let index := h.current_upstream % healthy.length
      (some (healthy.get ⟨index, Nat.mod_lt _ (Nat.pos_of_ne_zero hne)⟩),
        { h with current_upstream := h.current_upstream + 1 })
    | .LeastConnections => (min_by_count healthy, h)
    | .WeightedRoundRobin => (healthy.head?, h)
    | .Random =>
      (some (healthy.get ⟨rand % healthy.length, Nat.mod_lt _ (Nat.pos_of_ne_zero hne)⟩), h)

/-- In-place update of the element at an index (the effect of mutating one
upstream's atomics through its `Arc`). -/
def list_modify (f : Upstream → Upstream) : List Upstream → Nat → List Upstream
  | [], _ => []
  | a :: l, 0 => f a :: l
  | a :: l, n + 1 => a :: list_modify f l n

/-- Mark the upstream at an index unhealthy (`upstream.set_healthy(false)`). -/
def set_unhealthy (h : ProxyHandler) (index : Nat) : ProxyHandler :=
  { h with upstreams := list_modify (fun u => { u with healthy := false }) h.upstreams index }

/-- Count one forwarded request (`upstream.increment_requests()`, performed
at the top of `forward_request`). -/
def count_request (h : ProxyHandler) (index : Nat) : ProxyHandler :=
  { h with upstreams :=
      list_modify (fun u => { u with request_count := u.request_count + 1 }) h.upstreams index }

/-- The observable outcome of `handle_with_retry`: its result plus the
trace of upstream names actually forwarded to (network attempts, in
order) and of the backoff sleeps performed (milliseconds). -/
structure RetryTrace where
  result : Except ServerError HttpResponse
  forwards : List String
  sleeps : List Nat

/-- The loop of `ProxyHandler::handle_with_retry` (lines 204-239) over the
remaining attempt numbers. `forward attempt name` is the outcome of
`forward_request` (network I/O oracle). Per iteration: reselect an
upstream (none healthy aborts with ServiceUnavailable), forward (success
returns), record the error, mark the upstream unhealthy on Timeout, and
sleep `100 * 2 ^ attempt` ms before the next attempt. After the last
attempt, the last observed error (or the generic message) is returned. -/
def handle_with_retry_go (rand : Nat → Nat)
    (forward : Nat → String → Except ServerError HttpResponse) (max_retries : Nat) :
    List Nat → ProxyHandler → Option ServerError → RetryTrace
  | [], _, last_error =>
    { result := .error (last_error.getD (.ServiceUnavailable "All retry attempts failed"))
      forwards := [], sleeps := [] }
  | attempt :: rest, h, last_error =>
    match select_upstream h (rand attempt) with
    | (none, _) =>
      { result := .error (.ServiceUnavailable "No healthy upstreams available")
        forwards := [], sleeps := [] }
    | (some (index, upstream), h1) =>
      let h2 := count_request h1 index
      match forward attempt upstream.config.name with
      | .ok response =>
        { result := .ok response, forwards := [upstream.config.name], sleeps := [] }
      | .error e =>
        let h3 := if e = .Timeout then set_unhealthy h2 index else h2
        let sleeps_here := if attempt < max_retries then [100 * 2 ^ attempt] else []
        let restRun := handle_with_retry_go rand forward max_retries rest h3 (some e)
        { result := restRun.result
          forwards := upstream.config.name :: restRun.forwards
          sleeps := sleeps_here ++ restRun.sleeps }

/-- `ProxyHandler::handle_with_retry`: attempts `0 ..= max_retries` with
`max_retries = config.retry_attempts.unwrap_or(3)`. -/
def handle_with_retry (h : ProxyHandler) (rand : Nat → Nat)
    (forward : Nat → String → Except ServerError HttpResponse) : RetryTrace :=
  let max_retries := h.config.retry_attempts.getD 3
  handle_with_retry_go rand forward max_retries (List.range (max_retries + 1)) h none

/-- The `Handler` implementation for `ProxyHandler` (lines 300-309):
disabled yields NotFound; otherwise the retry result is wrapped as a
`HandlerResult` (errors become `HandlerResult::Error`, not `Err`).
Returned with the forwarding/sleep trace. -/
def proxy_handle (h : ProxyHandler) (rand : Nat → Nat)
    (forward : Nat → String → Except ServerError HttpResponse) :
    Except ServerError HandlerResult × List String × List Nat :=
  if h.config.enabled = false then (.ok .NotFound, [], [])
  else
    let t := handle_with_retry h rand forward
    match t.result with
    | .ok response => (.ok (.Response response), t.forwards, t.sleeps)
    | .error e => (.ok (.Error e), t.forwards, t.sleeps)

/-! ## Basic auth provider (`server_auth_basic_rs.rs`) -/

/-- `AuthUser` as `BasicAuthProvider` constructs it: an id and a username. -/
structure AuthUser where
  id : String
  username : String
deriving DecidableEq, Repr

/-- `AuthResult`: no credentials supplied, success, or supplied-but-wrong. -/
inductive AuthResult where
  | NoAuth
  | Success (user : AuthUser)
  | Failed (reason : String)
deriving DecidableEq, Repr

/-- Value of one base64 alphabet character (standard alphabet). -/
def b64_val (c : Char) : Option Nat :=
  if 'A' ≤ c ∧ c ≤ 'Z' then some (c.toNat - 'A'.toNat)
  else if 'a' ≤ c ∧ c ≤ 'z' then some (c.toNat - 'a'.toNat + 26)
  else if '0' ≤ c ∧ c ≤ '9' then some (c.toNat - '0'.toNat + 52)
  else if c = '+' then some 62
  else if c = '/' then some 63
  else none

/-- Standard base64 decoding (`base64::decode`) to bytes: four-character
groups with optional terminal padding; any other shape or character fails. -/
def base64_decode_go : List Char → Option (List Nat)
  | [] => some []
  | a :: b :: c :: d :: rest => do
    let va ← b64_val a
    let vb ← b64_val b
    if c = '=' ∧ d = '=' ∧ rest = [] then
      some [va * 4 + vb / 16]
    else do
      let vc ← b64_val c
      if d = '=' ∧ rest = [] then
        some [va * 4 + vb / 16, (vb % 16) * 16 + vc / 4]
      else do
        let vd ← b64_val d
        let tail ← base64_decode_go rest
        some ((va * 4 + vb / 16) :: ((vb % 16) * 16 + vc / 4) :: ((vc % 4) * 64 + vd) :: tail)
  | _ => none

/-- Base64 decoding to a string. The decoded bytes must form valid text;
the model accepts ASCII (the one-byte case of UTF-8 validation; the
claims' credentials are ASCII). -/
def base64_decode_string (s : String) : Option String := do
  let bytes ← base64_decode_go s.data
  if bytes.all (fun b => b < 128) then some (String.mk (bytes.map Char.ofNat)) else none

/-- Modelled from the spec: `auth::utils::extract_basic_auth`, whose module
(`plugins/auth/mod.rs`) is not among the staged sources. Per specification
section 4.5 ("decode the `Authorization: Basic <base64(user:pass)>`
header") and the provider's own tests: read the `authorization` header,
require the `Basic ` scheme prefix, base64-decode the remainder, and split
the decoded text at the first colon into (username, password); any failure
along the way yields no credentials. -/
def extract_basic_auth (request : HttpRequest) : Option (String × String) :=
  match request.headers.lookup "authorization" with
  | none => none
  | some value =>
    if value.data.take 6 = "Basic ".data then
      match base64_decode_string (String.mk (value.data.drop 6)) with
      | none => none
      | some decoded => split_once decoded ':'
    else none

/-- `BasicAuthProvider` (lines 8-11). -/
structure BasicAuthProvider where
  users : List (String × String)
  realm : String

/-- `BasicAuthProvider::verify_credentials` (lines 32-36). -/
def verify_credentials (p : BasicAuthProvider) (username password : String) : Bool :=
  ((p.users.lookup username).map (fun stored_password => stored_password == password)).getD
    false

/-- `BasicAuthProvider::extract_credentials` (lines 39-42). -/
def extract_credentials (_p : BasicAuthProvider) (request : HttpRequest) :
    Option (String × String) :=
  extract_basic_auth request

/-- `BasicAuthProvider::authenticate` (lines 50-61). -/
def authenticate (p : BasicAuthProvider) (request : HttpRequest) :
    Except ServerError AuthResult :=
  match extract_credentials p request with
  | some (username, password) =>
    if verify_credentials p username password then
      .ok (.Success { id := username, username := username })
    else
      .ok (.Failed "Invalid username or password")
  | none => .ok .NoAuth

/-! ## Theorems for the claims -/

/-- C9: for every error reaching the connection-handling layer, the
rendered response's status is the fixed kind-to-status mapping (NotFound
404, BadRequest 400, Unauthorized and Auth 401, Forbidden 403, Timeout
408, ServiceUnavailable 503, every other kind 500) and its body is the
JSON object `{error: {message, status}}` whose `status` field equals the
response's status code. -/
theorem error_response_mapping_and_body (e : ServerError) :
    e.to_status_code = spec_status_mapping e ∧
    (create_error_response e).status = spec_status_mapping e ∧
    (create_error_response e).headers = [("content-type", "application/json")] ∧
    (create_error_response e).body = Json.obj [("error", Json.obj
      [("message", Json.str e.message),
       ("status", Json.num ((create_error_response e).status : Int))])] := by
  cases e <;> exact ⟨rfl, rfl, rfl, rfl⟩

/-- A request whose Authorization header carries malformed base64. -/
def bad_base64_request : HttpRequest :=
  { method := .GET, path := "/", query := none
    headers := [("authorization", "Basic invalid-base64")] }

/-- A request whose Authorization header decodes to text with no colon
(`bm9jb2xvbg==` is the base64 of `nocolon`). -/
def no_colon_request : HttpRequest :=
  { method := .GET, path := "/", query := none
    headers := [("authorization", "Basic bm9jb2xvbg==")] }

/-- C10: `BasicAuthProvider::authenticate` yields NoAuth whenever no
credential pair can be extracted from the request (for instance a
malformed base64 payload, or a decoded value with no colon), and yields
Failed only when a pair was extracted but does not verify against the
user map. -/
theorem basic_auth_noauth_not_failed (p : BasicAuthProvider) (request : HttpRequest) :
    (extract_credentials p request = none → authenticate p request = .ok .NoAuth) ∧
    (∀ reason, authenticate p request = .ok (.Failed reason) →
      ∃ username password,
        extract_credentials p request = some (username, password) ∧
        verify_credentials p username password = false) ∧
    authenticate p bad_base64_request = .ok .NoAuth ∧
    authenticate p no_colon_request = .ok .NoAuth := by
  refine ⟨?_, ?_, ?_, ?_⟩
  · intro h
    simp [authenticate, h]
  · intro reason h
    match hx : extract_credentials p request with
    | none => simp [authenticate, hx] at h
    | some (username, password) =>
      refine ⟨username, password, rfl, ?_⟩
      by_cases hv : verify_credentials p username password
      · simp [authenticate, hx, hv] at h
      · simpa using hv
  · rfl
  · rfl

/-- A stored session for the C8 counterexample: expires at 100. -/
def c8_session : Session :=
  { id := "sid", user_id := none, data := [], created_at := 0
    expires_at := 100, last_accessed := 0 }

/-- A memory store holding `c8_session`. -/
def c8_store : MemoryStore := [("sid", c8_session)]

/-- C8 counterexample: at `now = 5` with `timeout = 10` the session is not
expired, and `get_session` returns it with `last_accessed = 5` (the
current time), not `now + timeout = 15` as the claim states. -/
theorem get_session_last_accessed_counterexample :
    (get_session memory_store_ops 10 5 c8_store "sid").map
        (fun p => p.1.map Session.last_accessed) = .ok (some 5) ∧
    (5 : Nat) ≠ 5 + 10 := by
  exact ⟨rfl, by decide⟩

/-- C8 (amended): `get_session` auto-deletes and returns none exactly when
the session is expired, expiry being strictly `now > expires_at`;
otherwise it refreshes the session — setting `last_accessed` to `now` and
`expires_at` to `now + timeout` — re-persists it via the store, and
returns the refreshed session. A missing id yields none with the store
untouched. -/
theorem get_session_expiry_and_refresh {σ : Type} (ops : SessionStoreOps σ)
    (timeout now : Nat) (store : σ) (session_id : String) (session : Session)
    (hget : ops.get store session_id = .ok (some session)) :
    (session.is_expired now = true ↔ now > session.expires_at) ∧
    (now > session.expires_at →
      get_session ops timeout now store session_id =
        (ops.delete store session_id).map (fun store1 => (none, store1))) ∧
    (¬ now > session.expires_at →
      get_session ops timeout now store session_id =
        (ops.save store { session with last_accessed := now, expires_at := now + timeout }).map
          (fun store1 =>
            (some { session with last_accessed := now, expires_at := now + timeout },
              store1))) ∧
    (∀ (store0 : σ) (id0 : String), ops.get store0 id0 = .ok none →
      get_session ops timeout now store0 id0 = .ok (none, store0)) := by
  refine ⟨by simp [Session.is_expired], ?_, ?_, ?_⟩
  · intro h
    cases hd : ops.delete store session_id <;>
      simp [get_session, hget, Session.is_expired, h, hd, Except.map]
  · intro h
    cases hs : ops.save store { session with last_accessed := now, expires_at := now + timeout } <;>
      simp [get_session, hget, Session.is_expired, h, Session.refresh, hs, Except.map]
  · intro store0 id0 h0
    simp [get_session, h0]

/-- C8 witness: the amended theorem applied to the concrete memory store at
`now = 5`, `timeout = 10`. -/
theorem get_session_expiry_and_refresh_witness :
    (c8_session.is_expired 5 = true ↔ 5 > c8_session.expires_at) ∧
    (5 > c8_session.expires_at →
      get_session memory_store_ops 10 5 c8_store "sid" =
        (memory_store_ops.delete c8_store "sid").map (fun store1 => (none, store1))) ∧
    (¬ 5 > c8_session.expires_at →
      get_session memory_store_ops 10 5 c8_store "sid" =
        (memory_store_ops.save c8_store
            { c8_session with last_accessed := 5, expires_at := 5 + 10 }).map
          (fun store1 =>
            (some { c8_session with last_accessed := 5, expires_at := 5 + 10 }, store1))) ∧
    (∀ (store0 : MemoryStore) (id0 : String),
      memory_store_ops.get store0 id0 = .ok none →
      get_session memory_store_ops 10 5 store0 id0 = .ok (none, store0)) :=
  get_session_expiry_and_refresh memory_store_ops 10 5 c8_store "sid" c8_session rfl

/-- Matching no pieces succeeds exactly on the empty remainder (the `$`
anchor), with no captures. -/
theorem match_pieces_nil_iff (input : List Char) (caps : List (String × String)) :
    match_pieces [] input = some caps ↔ input = [] ∧ caps = [] := by
  cases input <;> simp [match_pieces, eq_comm]

/-- A parameter quantifier never matches beyond the end of the input:
trying only lengths shorter than the input fails when nothing follows. -/
theorem param_try_short_none (n : String) (cs : List Char) :
    ∀ k, k < cs.length → param_try n (match_pieces []) cs k = none := by
  intro k
  induction k with
  | zero => intro _; rfl
  | succ k ih =>
    intro hk
    have hdrop : cs.drop (k + 1) ≠ [] := by
      intro h
      have := List.length_drop (k + 1) cs
      rw [h] at this
      simp at this
      omega
    have hnone : match_pieces [] (cs.drop (k + 1)) = none := by
      cases h : cs.drop (k + 1) with
      | nil => exact absurd h hdrop
      | cons a l => simp [match_pieces, h]
    simp only [param_try, hnone]
    exact ih (by omega)

/-- A single trailing `[^/]+` parameter matches exactly the nonempty
all-non-slash remainders, capturing the whole remainder. -/
theorem match_pieces_single_param_iff (n : String) (cs : List Char)
    (caps : List (String × String)) :
    match_pieces [PathPiece.param n] cs = some caps ↔
      cs ≠ [] ∧ (∀ c ∈ cs, c ≠ '/') ∧ caps = [(n, String.mk cs)] := by
  constructor
  · intro h
    by_cases hall : ∀ c ∈ cs, c ≠ '/'
    · have hself : cs.takeWhile (fun c => c ≠ '/') = cs := by
        rw [List.takeWhile_eq_self_iff]
        intro x hx
        simpa using hall x hx
      cases cs with
      | nil => simp [match_pieces, param_try] at h
      | cons a l =>
        have hlen : ((a :: l).takeWhile (fun c => c ≠ '/')).length = l.length + 1 := by
          rw [hself]; rfl
        simp only [match_pieces, hlen, param_try, List.drop_succ_cons, List.drop_length,
          List.take_succ_cons, List.take_length] at h
        refine ⟨by simp, hall, ?_⟩
        simpa [match_pieces] using h.symm
    · have hrun : (cs.takeWhile (fun c => c ≠ '/')).length ≤ cs.length :=
        (List.takeWhile_prefix _).length_le
      have hlt : (cs.takeWhile (fun c => c ≠ '/')).length < cs.length := by
        rcases Nat.lt_or_ge (cs.takeWhile (fun c => c ≠ '/')).length cs.length with hl | hl
        · exact hl
        · exfalso
          have hq : cs.takeWhile (fun c => c ≠ '/') = cs :=
            (List.takeWhile_prefix _).eq_of_length (Nat.le_antisymm hrun hl)
          rw [List.takeWhile_eq_self_iff] at hq
          exact hall (fun c hc => by simpa using hq c hc)
      rw [match_pieces, param_try_short_none n cs _ hlt] at h
      exact absurd h (by simp)
  · rintro ⟨hne, hall, hcaps⟩
    have hself : cs.takeWhile (fun c => c ≠ '/') = cs := by
      rw [List.takeWhile_eq_self_iff]
      intro x hx
      simpa using hall x hx
    cases cs with
    | nil => exact absurd rfl hne
    | cons a l =>
      have hlen : ((a :: l).takeWhile (fun c => c ≠ '/')).length = l.length + 1 := by
        rw [hself]; rfl
      simp only [match_pieces, hlen, param_try, List.drop_succ_cons, List.drop_length,
        List.take_succ_cons, List.take_length, hcaps]
      simp [match_pieces]

/-- A literal piece matches exactly its own text as a prefix, matching the
remaining pieces against the rest. -/
theorem match_pieces_lit_iff (l : List Char) (rest : List PathPiece)
    (input : List Char) (caps : List (String × String)) :
    match_pieces (PathPiece.lit l :: rest) input = some caps ↔
      ∃ suffix, input = l ++ suffix ∧ match_pieces rest suffix = some caps := by
  constructor
  · intro h
    rw [match_pieces] at h
    by_cases ht : input.take l.length = l
    · refine ⟨input.drop l.length, ?_, ?_⟩
      · conv_lhs => rw [← List.take_append_drop l.length input]
        rw [ht]
      · simpa [ht] using h
    · simp [ht] at h
  · rintro ⟨suffix, rfl, hm⟩
    rw [match_pieces]
    simp [List.take_left, List.drop_left, hm]

/-- The request `GET /users/42`. -/
def users42_request : HttpRequest :=
  { method := .GET, path := "/users/42", query := none, headers := [] }

/-- The request `GET /users/42/extra`. -/
def users42_extra_request : HttpRequest :=
  { method := .GET, path := "/users/42/extra", query := none, headers := [] }

/-- C5: registering `/users/{id}` compiles it to an anchored matcher with
one named capture matching a single path segment: `find_route` on
`/users/42` yields params `{id: "42"}`, on `/users/42/extra` no match;
and in general the compiled matcher accepts exactly the paths
`/users/<seg>` with `<seg>` a nonempty slash-free segment, capturing it
as `id`. -/
theorem users_id_route_matching :
    (∀ (handler : Handler) (regex_new : String → Except ServerError Matcher),
      (add_route regex_new [] (Route.get "/users/{id}") handler).map
          (fun table =>
            ((find_route table users42_request).map fun rm => (rm.route.path, rm.params),
             (find_route table users42_extra_request).map fun rm => (rm.route.path, rm.params))) =
        .ok (some ("/users/{id}", [("id", "42")]), none)) ∧
    (∀ (p : String) (caps : List (String × String)),
      path_to_regex "/users/{id}" p = some caps ↔
        ∃ s : String, p = "/users/" ++ s ∧ s.data ≠ [] ∧ (∀ c ∈ s.data, c ≠ '/') ∧
          caps = [("id", s)]) := by
  have hparse : parse_pieces ("/users/{id}".data) =
      [PathPiece.lit "/users/".data, PathPiece.param "id"] := by decide
  constructor
  · intro handler regex_new
    rfl
  · intro p caps
    rw [path_to_regex, hparse, match_pieces_lit_iff]
    constructor
    · rintro ⟨suffix, hdata, hm⟩
      rw [match_pieces_single_param_iff] at hm
      refine ⟨String.mk suffix, ?_, hm.1, hm.2.1, hm.2.2⟩
      apply String.ext
      simpa using hdata
    · rintro ⟨s, rfl, hne, hall, hcaps⟩
      refine ⟨s.data, by simp, ?_⟩
      rw [match_pieces_single_param_iff]
      refine ⟨hne, hall, ?_⟩
      obtain ⟨d⟩ := s
      exact hcaps

/-- Insertion after all entries of smaller-or-equal priority: where the
stable sort of `register_route_entry` places a newly pushed entry in an
already sorted table. -/
def insert_after_le (e : RouteEntry) : List RouteEntry → List RouteEntry
  | [] => [e]
  | x :: xs =>
    if x.route.priority ≤ e.route.priority then x :: insert_after_le e xs
    else e :: x :: xs

theorem mem_insert_after_le {a e : RouteEntry} :
    ∀ {l : List RouteEntry}, a ∈ insert_after_le e l → a = e ∨ a ∈ l := by
  intro l
  induction l with
  | nil => simp [insert_after_le]
  | cons x xs ih =>
    rw [insert_after_le]
    by_cases h : x.route.priority ≤ e.route.priority
    · rw [if_pos h]
      intro hm
      rcases List.mem_cons.mp hm with rfl | hm2
      · exact Or.inr (List.mem_cons_self _ _)
      · rcases ih hm2 with h1 | h1
        · exact Or.inl h1
        · exact Or.inr (List.mem_cons_of_mem _ h1)
    · rw [if_neg h]
      intro hm
      rcases List.mem_cons.mp hm with rfl | hm2
      · exact Or.inl rfl
      · exact Or.inr hm2

theorem insert_after_le_ne_nil (e : RouteEntry) :
    ∀ (l : List RouteEntry), insert_after_le e l ≠ [] := by
  intro l
  cases l with
  | nil => simp [insert_after_le]
  | cons x xs =>
    rw [insert_after_le]
    by_cases h : x.route.priority ≤ e.route.priority
    · rw [if_pos h]; simp
    · rw [if_neg h]; simp

theorem insert_after_le_front {e : RouteEntry} {l : List RouteEntry}
    (h : ∀ b ∈ l, ¬ b.route.priority ≤ e.route.priority) :
    insert_after_le e l = e :: l := by
  cases l with
  | nil => rfl
  | cons x xs =>
    rw [insert_after_le, if_neg (h x (List.mem_cons_self _ _))]

theorem sort_insert_front {x : RouteEntry} {l : List RouteEntry}
    (h : ∀ b ∈ l, x.route.priority ≤ b.route.priority) :
    sort_insert x l = x :: l := by
  cases l with
  | nil => rfl
  | cons y ys =>
    rw [sort_insert, if_pos (h y (List.mem_cons_self _ _))]

/-- Stable sorting of a sorted table with one pushed element is the stable
insertion of that element. -/
theorem sort_by_priority_append_singleton {t : List RouteEntry} {e : RouteEntry}
    (h : t.Pairwise (fun a b => a.route.priority ≤ b.route.priority)) :
    sort_by_priority (t ++ [e]) = insert_after_le e t := by
  rw [sort_by_priority, List.foldr_append]
  show List.foldr sort_insert [e] t = insert_after_le e t
  induction t with
  | nil => rfl
  | cons x xs ih =>
    have hx : ∀ b ∈ xs, x.route.priority ≤ b.route.priority :=
      (List.pairwise_cons.mp h).1
    have hxs := (List.pairwise_cons.mp h).2
    rw [List.foldr_cons, ih hxs, insert_after_le]
    by_cases hle : x.route.priority ≤ e.route.priority
    · rw [if_pos hle]
      cases hi : insert_after_le e xs with
      | nil => exact absurd hi (insert_after_le_ne_nil e xs)
      | cons hd tl =>
        have hmem : hd = e ∨ hd ∈ xs := mem_insert_after_le (hi ▸ List.mem_cons_self hd tl)
        have hhd : x.route.priority ≤ hd.route.priority := by
          rcases hmem with rfl | hm
          · exact hle
          · exact hx hd hm
        rw [sort_insert, if_pos hhd]
    · rw [if_neg hle]
      have hxsgt : ∀ b ∈ xs, ¬ b.route.priority ≤ e.route.priority := by
        intro b hb hc
        exact hle (le_trans (hx b hb) hc)
      rw [insert_after_le_front hxsgt, sort_insert, if_neg hle,
        sort_insert_front hx]

theorem insert_after_le_pairwise {e : RouteEntry} {l : List RouteEntry}
    (h : l.Pairwise (fun a b => a.route.priority ≤ b.route.priority)) :
    (insert_after_le e l).Pairwise (fun a b => a.route.priority ≤ b.route.priority) := by
  induction l with
  | nil => simp [insert_after_le]
  | cons x xs ih =>
    have hx : ∀ b ∈ xs, x.route.priority ≤ b.route.priority :=
      (List.pairwise_cons.mp h).1
    have hxs := (List.pairwise_cons.mp h).2
    by_cases hle : x.route.priority ≤ e.route.priority
    · rw [insert_after_le, if_pos hle]
      rw [List.pairwise_cons]
      refine ⟨?_, ih hxs⟩
      intro b hb
      rcases mem_insert_after_le hb with rfl | hm
      · exact hle
      · exact hx b hm
    · rw [insert_after_le, if_neg hle]
      rw [List.pairwise_cons]
      constructor
      · intro b hb
        rcases List.mem_cons.mp hb with rfl | hm
        · exact le_of_lt (lt_of_not_le hle)
        · exact le_trans (le_of_lt (lt_of_not_le hle)) (hx b hm)
      · exact h

/-- Tables built by successive registrations are sorted by priority. -/
theorem register_all_pairwise (entries : List RouteEntry) :
    (register_all entries).Pairwise (fun a b => a.route.priority ≤ b.route.priority) := by
  induction entries using List.reverseRecOn with
  | nil => simp [register_all]
  | append_singleton l e ih =>
    rw [register_all, List.foldl_append]
    show (register_route_entry (register_all l) e).Pairwise _
    rw [register_route_entry, sort_by_priority_append_singleton ih]
    exact insert_after_le_pairwise ih

/-- Any result of the first-match walk has priority at least any lower
bound of the walked table. -/
theorem find_route_go_priority_lb {method : Method} {path : String} {c : Int} :
    ∀ {l : List RouteEntry} {rm : RouteMatch},
      (∀ b ∈ l, c ≤ b.route.priority) → find_route_go method path l = some rm →
      c ≤ rm.route.priority := by
  intro l
  induction l with
  | nil => intro rm _ h; simp [find_route_go] at h
  | cons x xs ih =>
    intro rm hlb h
    rw [find_route_go] at h
    by_cases hm : (route_entry_matches x method path).1
    · simp only [if_pos hm, Option.some.injEq] at h
      rw [← h]
      exact hlb x (List.mem_cons_self _ _)
    · simp only [if_neg hm] at h
      exact ih (fun b hb => hlb b (List.mem_cons_of_mem _ hb)) h

/-- The crux of first-match-wins over a sorted, stably built table:
walking the table with one more entry stably inserted returns what the
spec-side best-of fold computes from the walk of the old table. -/
theorem find_route_go_insert {method : Method} {path : String} {e : RouteEntry} :
    ∀ {t : List RouteEntry},
      t.Pairwise (fun a b => a.route.priority ≤ b.route.priority) →
      find_route_go method path (insert_after_le e t) =
        spec_best_step method path (find_route_go method path t) e := by
  intro t
  induction t with
  | nil =>
    intro _
    by_cases hm : (route_entry_matches e method path).1 <;>
      simp [insert_after_le, find_route_go, spec_best_step_none, hm]
  | cons x xs ih =>
    intro hp
    have hx : ∀ b ∈ xs, x.route.priority ≤ b.route.priority :=
      (List.pairwise_cons.mp hp).1
    have hxs := (List.pairwise_cons.mp hp).2
    by_cases hle : x.route.priority ≤ e.route.priority
    · rw [insert_after_le, if_pos hle]
      by_cases hm : (route_entry_matches x method path).1
      · rw [find_route_go, if_pos hm, find_route_go, if_pos hm, spec_best_step_some]
        by_cases hme : (route_entry_matches e method path).1
        · rw [if_pos hme, if_neg (by simp only [not_lt]; exact hle)]
        · rw [if_neg hme]
      · rw [find_route_go, if_neg hm, find_route_go, if_neg hm]
        exact ih hxs
    · rw [insert_after_le, if_neg hle]
      by_cases hme : (route_entry_matches e method path).1
      · rw [find_route_go, if_pos hme]
        cases hfx : find_route_go method path (x :: xs) with
        | none => rw [spec_best_step_none, if_pos hme]
        | some rm =>
          have hge : x.route.priority ≤ rm.route.priority := by
            refine find_route_go_priority_lb ?_ hfx
            intro b hb
            rcases List.mem_cons.mp hb with rfl | hmem
            · exact le_refl _
            · exact hx b hmem
          rw [spec_best_step_some, if_pos hme,
            if_pos (lt_of_lt_of_le (lt_of_not_le hle) hge)]
      · rw [find_route_go, if_neg hme]
        cases hfx : find_route_go method path (x :: xs) with
        | none => rw [spec_best_step_none, if_neg hme]
        | some rm => rw [spec_best_step_some, if_neg hme]

/-- C2: over every registration sequence, `find_route` on the built table
returns, among the routes matching the request's method and path, the one
with the lowest priority value, ties broken in favour of the first
registered (the registration sort is stable) — that is, exactly the
spec-side best match computed over the entries in registration order. -/
theorem find_route_first_by_priority (entries : List RouteEntry) (request : HttpRequest) :
    find_route (register_all entries) request = spec_best_match entries request := by
  induction entries using List.reverseRecOn with
  | nil => rfl
  | append_singleton l e ih =>
    have h1 : register_all (l ++ [e]) = insert_after_le e (register_all l) := by
      rw [register_all, List.foldl_append]
      show register_route_entry (register_all l) e = _
      rw [register_route_entry, sort_by_priority_append_singleton (register_all_pairwise l)]
    have h2 : spec_best_match (l ++ [e]) request =
        spec_best_step request.method request.path (spec_best_match l request) e := by
      rw [spec_best_match, spec_best_match, List.foldl_append]
      rfl
    rw [find_route, h1, find_route_go_insert (register_all_pairwise l), h2, ← ih]
    rfl

/-- C1: a plugin returning `Response(r)` short-circuits with that response
exactly on the response-producing hooks — PreRequest, PostRoute,
PreHandler, OnError — while on PostHandler, PreResponse, PostResponse,
OnStartup and OnShutdown a returned `Response(r)` is treated as Continue
(the chain proceeds exactly as with the leading plugin removed, whatever
the rest of the chain is); in particular a PostHandler chain consisting of
that one plugin leaves the handler's response as the one sent. -/
theorem response_short_circuit_asymmetry
    (m : PluginManager) (nm : String) (pr : Int) (P : Plugin) (r : HttpResponse)
    (rest : PluginHook → List (String × Int))
    (hchain : ∀ h, m.hook_plugins h = (nm, pr) :: rest h)
    (hen : m.is_plugin_enabled nm = true)
    (hlook : m.plugins.lookup nm = some P)
    (hpreq : ∀ req ctx, P.pre_request req ctx = .ok (.Response r, req))
    (hproute : ∀ req ctx, P.post_route req ctx = .ok (.Response r))
    (hprehand : ∀ req ctx, P.pre_handler req ctx = .ok (.Response r))
    (honerr : ∀ e ctx, P.on_error e ctx = .ok (.Response r))
    (hposth : ∀ req resp ctx, P.post_handler req resp ctx = .ok (.Response r, resp))
    (hpresp : ∀ resp ctx, P.pre_response resp ctx = .ok (.Response r, resp))
    (hpostresp : ∀ resp ctx, P.post_response resp ctx = .ok (.Response r))
    (hstart : ∀ ctx, P.on_startup ctx = .ok (.Response r))
    (hshut : ∀ ctx, P.on_shutdown ctx = .ok (.Response r)) :
    ∀ (req : HttpRequest) (resp : HttpResponse) (ctx : PluginContext) (e : ServerError),
      m.execute_pre_request req ctx = .ok (some r, req) ∧
      m.execute_post_route req ctx = .ok (some r) ∧
      m.execute_pre_handler req ctx = .ok (some r) ∧
      m.execute_on_error e ctx = .ok (some r) ∧
      m.execute_post_handler req resp ctx =
        (m.set_hook .PostHandler (rest .PostHandler)).execute_post_handler req resp ctx ∧
      (rest .PostHandler = [] → m.execute_post_handler req resp ctx = .ok resp) ∧
      m.execute_pre_response resp ctx =
        (m.set_hook .PreResponse (rest .PreResponse)).execute_pre_response resp ctx ∧
      m.execute_post_response resp ctx =
        (m.set_hook .PostResponse (rest .PostResponse)).execute_post_response resp ctx ∧
      m.execute_startup ctx = (m.set_hook .OnStartup (rest .OnStartup)).execute_startup ctx ∧
      m.execute_shutdown ctx = (m.set_hook .OnShutdown (rest .OnShutdown)).execute_shutdown ctx := by
  intro req resp ctx e
  rw [PluginManager.is_plugin_enabled] at hen
  refine ⟨?_, ?_, ?_, ?_, ?_, ?_, ?_, ?_, ?_, ?_⟩
  · rw [PluginManager.execute_pre_request, hchain, execute_hook_with_request_go, hen]
    simp [hlook, hpreq]
  · rw [PluginManager.execute_post_route, PluginManager.execute_hook_simple_with_response,
      hchain, execute_hook_with_response_go, hen]
    simp [hlook, hproute]
  · rw [PluginManager.execute_pre_handler, PluginManager.execute_hook_simple_with_response,
      hchain, execute_hook_with_response_go, hen]
    simp [hlook, hprehand]
  · rw [PluginManager.execute_on_error, PluginManager.execute_hook_simple_with_response,
      hchain, execute_hook_with_response_go, hen]
    simp [hlook, honerr]
  · rw [PluginManager.execute_post_handler, hchain, execute_post_handler_go, hen]
    simp only [hlook, hposth]
    rw [PluginManager.execute_post_handler]
    simp [PluginManager.set_hook]
  · intro hrest
    rw [PluginManager.execute_post_handler, hchain, hrest, execute_post_handler_go, hen]
    simp [hlook, hposth, execute_post_handler_go]
  · rw [PluginManager.execute_pre_response, hchain, execute_pre_response_go, hen]
    simp only [hlook, hpresp]
    rw [PluginManager.execute_pre_response]
    simp [PluginManager.set_hook]
  · rw [PluginManager.execute_post_response, PluginManager.execute_hook_simple,
      hchain, execute_hook_simple_go, hen]
    simp only [hlook, hpostresp]
    rw [PluginManager.execute_post_response, PluginManager.execute_hook_simple]
    simp [PluginManager.set_hook]
  · rw [PluginManager.execute_startup, PluginManager.execute_hook_simple,
      hchain, execute_hook_simple_go, hen]
    simp only [hlook, hstart]
    rw [PluginManager.execute_startup, PluginManager.execute_hook_simple]
    simp [PluginManager.set_hook]
  · rw [PluginManager.execute_shutdown, PluginManager.execute_hook_simple,
      hchain, execute_hook_simple_go, hen]
    simp only [hlook, hshut]
    rw [PluginManager.execute_shutdown, PluginManager.execute_hook_simple]
    simp [PluginManager.set_hook]

/-- A short-circuit response used by the concrete plugin scenarios. -/
def c1_resp : HttpResponse := { status := 299, headers := [], body := Json.null }

/-- A plugin answering every hook with `Response(c1_resp)`, leaving the
request and response payloads unchanged. -/
def c1_plugin : Plugin :=
  { name := "p", version := "1", description := "", priority := 10
    handles_hook := fun _ => true
    on_startup := fun _ => .ok (.Response c1_resp)
    on_shutdown := fun _ => .ok (.Response c1_resp)
    pre_request := fun req _ => .ok (.Response c1_resp, req)
    post_route := fun _ _ => .ok (.Response c1_resp)
    pre_handler := fun _ _ => .ok (.Response c1_resp)
    post_handler := fun _ resp _ => .ok (.Response c1_resp, resp)
    pre_response := fun resp _ => .ok (.Response c1_resp, resp)
    post_response := fun _ _ => .ok (.Response c1_resp)
    on_error := fun _ _ => .ok (.Response c1_resp) }

/-- A manager with `c1_plugin` registered, enabled, and alone on every
hook's chain. -/
def c1_manager : PluginManager :=
  { plugins := [("p", c1_plugin)]
    hook_plugins := fun _ => [("p", 10)]
    enabled_plugins := [("p", true)] }

/-- A plain request used by the concrete scenarios. -/
def c1_request : HttpRequest :=
  { method := .GET, path := "/x", query := none, headers := [] }

/-- A handler response used by the concrete scenarios. -/
def c1_handler_resp : HttpResponse :=
  { status := 200, headers := [], body := Json.str "handled" }

/-- C1 witness: the asymmetry theorem applied to the concrete one-plugin
manager, a concrete request, handler response, context and error. -/
theorem response_short_circuit_asymmetry_witness :
    c1_manager.execute_pre_request c1_request (PluginContext.new .PreRequest) =
      .ok (some c1_resp, c1_request) ∧
    c1_manager.execute_post_route c1_request (PluginContext.new .PostRoute) =
      .ok (some c1_resp) ∧
    c1_manager.execute_pre_handler c1_request (PluginContext.new .PreHandler) =
      .ok (some c1_resp) ∧
    c1_manager.execute_on_error (.Internal "boom") (PluginContext.new .OnError) =
      .ok (some c1_resp) ∧
    c1_manager.execute_post_handler c1_request c1_handler_resp (PluginContext.new .PostHandler) =
      (c1_manager.set_hook .PostHandler []).execute_post_handler c1_request c1_handler_resp
        (PluginContext.new .PostHandler) ∧
    ([] = ([] : List (String × Int)) →
      c1_manager.execute_post_handler c1_request c1_handler_resp (PluginContext.new .PostHandler) =
        .ok c1_handler_resp) ∧
    c1_manager.execute_pre_response c1_handler_resp (PluginContext.new .PreResponse) =
      (c1_manager.set_hook .PreResponse []).execute_pre_response c1_handler_resp
        (PluginContext.new .PreResponse) ∧
    c1_manager.execute_post_response c1_handler_resp (PluginContext.new .PostResponse) =
      (c1_manager.set_hook .PostResponse []).execute_post_response c1_handler_resp
        (PluginContext.new .PostResponse) ∧
    c1_manager.execute_startup (PluginContext.new .OnStartup) =
      (c1_manager.set_hook .OnStartup []).execute_startup (PluginContext.new .OnStartup) ∧
    c1_manager.execute_shutdown (PluginContext.new .OnShutdown) =
      (c1_manager.set_hook .OnShutdown []).execute_shutdown (PluginContext.new .OnShutdown) :=
  response_short_circuit_asymmetry c1_manager "p" 10 c1_plugin c1_resp (fun _ => [])
    (fun _ => rfl) rfl rfl
    (fun _ _ => rfl) (fun _ _ => rfl) (fun _ _ => rfl) (fun _ _ => rfl)
    (fun _ _ _ => rfl) (fun _ _ => rfl) (fun _ _ => rfl) (fun _ => rfl) (fun _ => rfl)
    c1_request c1_handler_resp (PluginContext.new .PreRequest) (.Internal "boom")

/-- The pipeline only observes the six per-request hook executions: two
managers whose executions agree produce the same `handle_request` result. -/
theorem handle_request_congr (m m2 : PluginManager) (routes : List RouteEntry)
    (request : HttpRequest)
    (h1 : ∀ req ctx, m.execute_pre_request req ctx = m2.execute_pre_request req ctx)
    (h2 : ∀ req ctx, m.execute_post_route req ctx = m2.execute_post_route req ctx)
    (h3 : ∀ req ctx, m.execute_pre_handler req ctx = m2.execute_pre_handler req ctx)
    (h4 : ∀ req resp ctx, m.execute_post_handler req resp ctx = m2.execute_post_handler req resp ctx)
    (h5 : ∀ resp ctx, m.execute_pre_response resp ctx = m2.execute_pre_response resp ctx)
    (h6 : ∀ resp ctx, m.execute_post_response resp ctx = m2.execute_post_response resp ctx) :
    handle_request m routes request = handle_request m2 routes request := by
  simp only [handle_request, h1, h2, h3, h4, h5, h6]

/-- C4: when the enabled plugin at the head of a hook's chain returns
`Stop`, the rest of that chain — whatever it holds — is never consulted,
the hook execution produces no response and no error (for the mutating
hooks, the payload passes through unchanged), and the rest of the request
pipeline still runs: `handle_request` behaves exactly as with no plugins
at all. -/
theorem stop_terminates_chain_only
    (m : PluginManager) (nm : String) (pr : Int) (P : Plugin)
    (rest : PluginHook → List (String × Int))
    (hchain : ∀ h, m.hook_plugins h = (nm, pr) :: rest h)
    (hen : m.is_plugin_enabled nm = true)
    (hlook : m.plugins.lookup nm = some P)
    (hpreq : ∀ req ctx, P.pre_request req ctx = .ok (.Stop, req))
    (hproute : ∀ req ctx, P.post_route req ctx = .ok .Stop)
    (hprehand : ∀ req ctx, P.pre_handler req ctx = .ok .Stop)
    (honerr : ∀ e ctx, P.on_error e ctx = .ok .Stop)
    (hposth : ∀ req resp ctx, P.post_handler req resp ctx = .ok (.Stop, resp))
    (hpresp : ∀ resp ctx, P.pre_response resp ctx = .ok (.Stop, resp))
    (hpostresp : ∀ resp ctx, P.post_response resp ctx = .ok .Stop)
    (hstart : ∀ ctx, P.on_startup ctx = .ok .Stop)
    (hshut : ∀ ctx, P.on_shutdown ctx = .ok .Stop) :
    ∀ (req : HttpRequest) (resp : HttpResponse) (ctx : PluginContext) (e : ServerError)
      (routes : List RouteEntry),
      m.execute_pre_request req ctx = .ok (none, req) ∧
      m.execute_post_route req ctx = .ok none ∧
      m.execute_pre_handler req ctx = .ok none ∧
      m.execute_on_error e ctx = .ok none ∧
      m.execute_post_handler req resp ctx = .ok resp ∧
      m.execute_pre_response resp ctx = .ok resp ∧
      m.execute_post_response resp ctx = .ok () ∧
      m.execute_startup ctx = .ok () ∧
      m.execute_shutdown ctx = .ok () ∧
      handle_request m routes req =
        handle_request { m with hook_plugins := fun _ => [] } routes req := by
  intro req resp ctx e routes
  rw [PluginManager.is_plugin_enabled] at hen
  have a1 : ∀ (req : HttpRequest) (ctx : PluginContext),
      m.execute_pre_request req ctx = .ok (none, req) := by
    intro req ctx
    rw [PluginManager.execute_pre_request, hchain, execute_hook_with_request_go, hen]
    simp [hlook, hpreq]
  have a2 : ∀ (req : HttpRequest) (ctx : PluginContext),
      m.execute_post_route req ctx = .ok none := by
    intro req ctx
    rw [PluginManager.execute_post_route, PluginManager.execute_hook_simple_with_response,
      hchain, execute_hook_with_response_go, hen]
    simp [hlook, hproute]
  have a3 : ∀ (req : HttpRequest) (ctx : PluginContext),
      m.execute_pre_handler req ctx = .ok none := by
    intro req ctx
    rw [PluginManager.execute_pre_handler, PluginManager.execute_hook_simple_with_response,
      hchain, execute_hook_with_response_go, hen]
    simp [hlook, hprehand]
  have a4 : ∀ (e : ServerError) (ctx : PluginContext),
      m.execute_on_error e ctx = .ok none := by
    intro e ctx
    rw [PluginManager.execute_on_error, PluginManager.execute_hook_simple_with_response,
      hchain, execute_hook_with_response_go, hen]
    simp [hlook, honerr]
  have a5 : ∀ (req : HttpRequest) (resp : HttpResponse) (ctx : PluginContext),
      m.execute_post_handler req resp ctx = .ok resp := by
    intro req resp ctx
    rw [PluginManager.execute_post_handler, hchain, execute_post_handler_go, hen]
    simp [hlook, hposth]
  have a6 : ∀ (resp : HttpResponse) (ctx : PluginContext),
      m.execute_pre_response resp ctx = .ok resp := by
    intro resp ctx
    rw [PluginManager.execute_pre_response, hchain, execute_pre_response_go, hen]
    simp [hlook, hpresp]
  have a7 : ∀ (resp : HttpResponse) (ctx : PluginContext),
      m.execute_post_response resp ctx = .ok () := by
    intro resp ctx
    rw [PluginManager.execute_post_response, PluginManager.execute_hook_simple,
      hchain, execute_hook_simple_go, hen]
    simp [hlook, hpostresp]
  have a8 : ∀ (ctx : PluginContext), m.execute_startup ctx = .ok () := by
    intro ctx
    rw [PluginManager.execute_startup, PluginManager.execute_hook_simple,
      hchain, execute_hook_simple_go, hen]
    simp [hlook, hstart]
  have a9 : ∀ (ctx : PluginContext), m.execute_shutdown ctx = .ok () := by
    intro ctx
    rw [PluginManager.execute_shutdown, PluginManager.execute_hook_simple,
      hchain, execute_hook_simple_go, hen]
    simp [hlook, hshut]
  refine ⟨a1 req ctx, a2 req ctx, a3 req ctx, a4 e ctx, a5 req resp ctx,
    a6 resp ctx, a7 resp ctx, a8 ctx, a9 ctx, ?_⟩
  apply handle_request_congr
  · intro req0 ctx0
    rw [a1 req0 ctx0]
    rfl
  · intro req0 ctx0
    rw [a2 req0 ctx0]
    rfl
  · intro req0 ctx0
    rw [a3 req0 ctx0]
    rfl
  · intro req0 resp0 ctx0
    rw [a5 req0 resp0 ctx0]
    rfl
  · intro resp0 ctx0
    rw [a6 resp0 ctx0]
    rfl
  · intro resp0 ctx0
    rw [a7 resp0 ctx0]
    rfl

/-- A plugin answering every hook with `Stop`, payloads unchanged. -/
def c4_plugin : Plugin :=
  { name := "p", version := "1", description := "", priority := 10
    handles_hook := fun _ => true
    on_startup := fun _ => .ok .Stop
    on_shutdown := fun _ => .ok .Stop
    pre_request := fun req _ => .ok (.Stop, req)
    post_route := fun _ _ => .ok .Stop
    pre_handler := fun _ _ => .ok .Stop
    post_handler := fun _ resp _ => .ok (.Stop, resp)
    pre_response := fun resp _ => .ok (.Stop, resp)
    post_response := fun _ _ => .ok .Stop
    on_error := fun _ _ => .ok .Stop }

/-- A second plugin, of later priority, that would short-circuit every hook
were it reached; used to exhibit that a leading `Stop` bars it. -/
def c4_manager : PluginManager :=
  { plugins := [("p", c4_plugin), ("q", c1_plugin)]
    hook_plugins := fun _ => [("p", 10), ("q", 50)]
    enabled_plugins := [("p", true), ("q", true)] }

/-- C4 witness: the Stop theorem applied to a concrete manager in which a
priority-50 plugin `q` follows the stopping priority-10 plugin `p` on
every hook's chain. -/
theorem stop_terminates_chain_only_witness :
    c4_manager.execute_pre_request c1_request (PluginContext.new .PreRequest) =
      .ok (none, c1_request) ∧
    c4_manager.execute_post_route c1_request (PluginContext.new .PreRequest) = .ok none ∧
    c4_manager.execute_pre_handler c1_request (PluginContext.new .PreRequest) = .ok none ∧
    c4_manager.execute_on_error (.Internal "boom") (PluginContext.new .PreRequest) = .ok none ∧
    c4_manager.execute_post_handler c1_request c1_handler_resp (PluginContext.new .PreRequest) =
      .ok c1_handler_resp ∧
    c4_manager.execute_pre_response c1_handler_resp (PluginContext.new .PreRequest) =
      .ok c1_handler_resp ∧
    c4_manager.execute_post_response c1_handler_resp (PluginContext.new .PreRequest) = .ok () ∧
    c4_manager.execute_startup (PluginContext.new .PreRequest) = .ok () ∧
    c4_manager.execute_shutdown (PluginContext.new .PreRequest) = .ok () ∧
    handle_request c4_manager [] c1_request =
      handle_request { c4_manager with hook_plugins := fun _ => [] } [] c1_request :=
  stop_terminates_chain_only c4_manager "p" 10 c4_plugin (fun _ => [("q", 50)])
    (fun _ => rfl) rfl rfl
    (fun _ _ => rfl) (fun _ _ => rfl) (fun _ _ => rfl) (fun _ _ => rfl)
    (fun _ _ _ => rfl) (fun _ _ => rfl) (fun _ _ => rfl) (fun _ => rfl) (fun _ => rfl)
    c1_request c1_handler_resp (PluginContext.new .PreRequest) (.Internal "boom") []

/-- A plugin that would substitute `c1_resp` for any error, were the
OnError hook ever executed; all other hooks continue. -/
def c3_plugin : Plugin :=
  { name := "p", version := "1", description := "", priority := 10
    handles_hook := fun h => h = .OnError
    on_startup := fun _ => .ok .Continue
    on_shutdown := fun _ => .ok .Continue
    pre_request := fun req _ => .ok (.Continue, req)
    post_route := fun _ _ => .ok .Continue
    pre_handler := fun _ _ => .ok .Continue
    post_handler := fun _ resp _ => .ok (.Continue, resp)
    pre_response := fun resp _ => .ok (.Continue, resp)
    post_response := fun _ _ => .ok .Continue
    on_error := fun _ _ => .ok (.Response c1_resp) }

/-- A manager with `c3_plugin` registered and enabled on the OnError hook. -/
def c3_manager : PluginManager :=
  { plugins := [("p", c3_plugin)]
    hook_plugins := fun h => if h = .OnError then [("p", 10)] else []
    enabled_plugins := [("p", true)] }

/-- A handler that fails every request. -/
def c3_handler : Handler := fun _ _ => .ok (.Error (.Internal "boom"))

/-- The route table binding `/x` (any method) to the failing handler. -/
def c3_routes : List RouteEntry :=
  [{ route := Route.any "/x", handler := c3_handler, regex := none }]

/-- C3 counterexample: with an enabled OnError plugin that returns
`Response(c1_resp)`, a request whose handler fails is answered with the
rendered error response (status 500), not with `c1_resp` (status 299):
the OnError plugins are not invoked before the error is rendered, and
their response is not sent instead of it. -/
theorem on_error_not_invoked_counterexample :
    handle_request c3_manager c3_routes c1_request = .error (.Internal "boom") ∧
    handle_connection_service c3_manager c3_routes c1_request =
      create_error_response (.Internal "boom") ∧
    c3_manager.execute_on_error (.Internal "boom") (PluginContext.new .OnError) =
      .ok (some c1_resp) ∧
    (handle_connection_service c3_manager c3_routes c1_request).status = 500 ∧
    c1_resp.status = 299 :=
  ⟨rfl, rfl, rfl, rfl, rfl⟩

/-- C3 (amended): the request pipeline never invokes the OnError hook: its
outcome is unchanged under replacing the OnError chain by anything (in
particular, an OnError plugin returning `Response(r)` has no effect), and
every unrecovered error is rendered to the client as
`create_error_response` of that error by the connection layer. -/
theorem errors_rendered_without_on_error
    (m : PluginManager) (routes : List RouteEntry) (request : HttpRequest)
    (l : List (String × Int)) :
    handle_request (m.set_hook .OnError l) routes request = handle_request m routes request ∧
    handle_connection_service (m.set_hook .OnError l) routes request =
      handle_connection_service m routes request ∧
    (∀ e, handle_request m routes request = .error e →
      handle_connection_service m routes request = create_error_response e) := by
  have hmain : handle_request (m.set_hook .OnError l) routes request =
      handle_request m routes request :=
    handle_request_congr _ _ routes request
      (fun _ _ => rfl) (fun _ _ => rfl) (fun _ _ => rfl)
      (fun _ _ _ => rfl) (fun _ _ => rfl) (fun _ _ => rfl)
  refine ⟨hmain, ?_, ?_⟩
  · rw [handle_connection_service, handle_connection_service, hmain]
  · intro e h
    rw [handle_connection_service, h]

/-- With every upstream unhealthy the healthy filter is empty. -/
theorem healthy_filter_nil {l : List Upstream} (h : ∀ u ∈ l, u.healthy = false) :
    (l.enum.filter fun iu => iu.2.healthy) = [] := by
  rw [List.filter_eq_nil]
  intro x hx
  have hmem : x.2 ∈ l := List.get?_mem (List.mem_enum_iff_get?.mp hx)
  simp [h _ hmem]

/-- With every upstream unhealthy, selection yields nothing and leaves the
handler untouched. -/
theorem select_upstream_none {st : ProxyHandler} (r : Nat)
    (h : ∀ u ∈ st.upstreams, u.healthy = false) :
    select_upstream st r = (none, st) := by
  simp [select_upstream, healthy_filter_nil h]

/-- C6: when every upstream's healthy flag is false, the enabled proxy
handler returns a ServiceUnavailable error at once: no forwarding attempt
is made and no backoff sleep occurs (empty traces), and the retry loop is
entered only to abort on its first upstream selection. -/
theorem all_unhealthy_service_unavailable (h : ProxyHandler)
    (rand : Nat → Nat) (forward : Nat → String → Except ServerError HttpResponse)
    (henabled : h.config.enabled = true)
    (hall : ∀ u ∈ h.upstreams, u.healthy = false) :
    proxy_handle h rand forward =
      (.ok (.Error (.ServiceUnavailable "No healthy upstreams available")), [], []) ∧
    handle_with_retry h rand forward =
      { result := .error (.ServiceUnavailable "No healthy upstreams available")
        forwards := [], sleeps := [] } := by
  have hrun : handle_with_retry h rand forward =
      { result := .error (.ServiceUnavailable "No healthy upstreams available")
        forwards := [], sleeps := [] } := by
    rw [handle_with_retry]
    rw [List.range_succ_eq_map]
    rw [handle_with_retry_go, select_upstream_none (rand 0) hall]
  exact ⟨by simp [proxy_handle, henabled, hrun], hrun⟩

/-- A concrete upstream configuration. -/
def c6_upstream_config : UpstreamConfig :=
  { name := "backend1", url := "http://localhost:3001", weight := some 1
    health_check := none }

/-- A proxy handler whose single upstream is marked unhealthy. -/
def c6_proxy : ProxyHandler :=
  { config := { enabled := true, upstreams := [c6_upstream_config]
                timeout := some 30, retry_attempts := some 3 }
    upstreams := [{ config := c6_upstream_config, healthy := false, request_count := 0 }]
    strategy := .RoundRobin
    current_upstream := 0 }

/-- C6 witness: the theorem applied to the concrete all-unhealthy handler. -/
theorem all_unhealthy_service_unavailable_witness :
    proxy_handle c6_proxy (fun _ => 0) (fun _ _ => .error .Timeout) =
      (.ok (.Error (.ServiceUnavailable "No healthy upstreams available")), [], []) ∧
    handle_with_retry c6_proxy (fun _ => 0) (fun _ _ => .error .Timeout) =
      { result := .error (.ServiceUnavailable "No healthy upstreams available")
        forwards := [], sleeps := [] } :=
  all_unhealthy_service_unavailable c6_proxy (fun _ => 0) (fun _ _ => .error .Timeout)
    rfl (by decide)

/-- `min_by_key` returns an element of the list. -/
theorem min_by_count_mem : ∀ {l : List (Nat × Upstream)} {x : Nat × Upstream},
    min_by_count l = some x → x ∈ l := by
  intro l
  induction l with
  | nil => intro x h; cases h
  | cons a as ih =>
    intro x h
    rw [min_by_count] at h
    split at h
    · cases h
      exact List.mem_cons_self _ _
    · rename_i y hy
      split at h
      · cases h
        exact List.mem_cons_self _ _
      · cases h
        exact List.mem_cons_of_mem _ (ih hy)

/-- Any member of the healthy sublist is a healthy member of the
upstream list. -/
theorem healthy_filter_mem {st : ProxyHandler} {x : Nat × Upstream}
    (hx : x ∈ (st.upstreams.enum.filter fun iu => iu.2.healthy)) :
    x.2 ∈ st.upstreams ∧ x.2.healthy = true := by
  have h1 := List.mem_of_mem_filter hx
  have h2 := (List.mem_filter.mp hx).2
  exact ⟨List.get?_mem (List.mem_enum_iff_get?.mp h1), by simpa using h2⟩

/-- Selection either fails (and then every upstream is unhealthy and the
handler is unchanged), or picks a healthy upstream, changing at most the
round-robin counter. -/
theorem select_upstream_cases (st : ProxyHandler) (r : Nat) :
    (select_upstream st r = (none, st) ∧ ∀ u ∈ st.upstreams, u.healthy = false) ∨
    (∃ idx u st1, select_upstream st r = (some (idx, u), st1) ∧ u ∈ st.upstreams ∧
      u.healthy = true ∧ st1.upstreams = st.upstreams ∧ st1.strategy = st.strategy ∧
      st1.config = st.config) := by
  by_cases hlen : (st.upstreams.enum.filter fun iu => iu.2.healthy).length = 0
  · left
    constructor
    · simp [select_upstream, hlen]
    · intro u hu
      by_contra hne
      obtain ⟨i0, hget⟩ := List.get?_of_mem hu
      have henum : (i0, u) ∈ st.upstreams.enum := List.mem_enum_iff_get?.mpr hget
      have hfil : (i0, u) ∈ (st.upstreams.enum.filter fun iu => iu.2.healthy) :=
        List.mem_filter.mpr ⟨henum, by simpa using hne⟩
      rw [List.length_eq_zero] at hlen
      rw [hlen] at hfil
      cases hfil
  · right
    rw [select_upstream]
    rw [dif_neg hlen]
    cases hst : st.strategy with
    | RoundRobin =>
      set x := (st.upstreams.enum.filter fun iu => iu.2.healthy).get
        ⟨st.current_upstream % (st.upstreams.enum.filter fun iu => iu.2.healthy).length,
          Nat.mod_lt _ (Nat.pos_of_ne_zero hlen)⟩ with hx
      obtain ⟨hmem, hh⟩ := healthy_filter_mem (List.get_mem _ _ _ : x ∈ _)
      exact ⟨x.1, x.2, _, rfl, hmem, hh, rfl, rfl, rfl⟩
    | LeastConnections =>
      have hne : (st.upstreams.enum.filter fun iu => iu.2.healthy) ≠ [] := by
        intro hc
        rw [hc] at hlen
        exact hlen rfl
      obtain ⟨hd, tl, heq⟩ := List.exists_cons_of_ne_nil hne
      have hsome : ∃ y, min_by_count (st.upstreams.enum.filter fun iu => iu.2.healthy) =
          some y := by
        rw [heq, min_by_count]
        cases hm : min_by_count tl with
        | none => exact ⟨hd, rfl⟩
        | some y =>
          by_cases hc : hd.2.request_count ≤ y.2.request_count
          · refine ⟨hd, ?_⟩
            show (if hd.2.request_count ≤ y.2.request_count then some hd else some y) =
              some hd
            rw [if_pos hc]
          · refine ⟨y, ?_⟩
            show (if hd.2.request_count ≤ y.2.request_count then some hd else some y) =
              some y
            rw [if_neg hc]
      obtain ⟨y, hy⟩ := hsome
      obtain ⟨hmem, hh⟩ := healthy_filter_mem (min_by_count_mem hy)
      refine ⟨y.1, y.2, st, ?_, hmem, hh, rfl, hst, rfl⟩
      show (min_by_count (st.upstreams.enum.filter fun iu => iu.2.healthy), st) =
        (some (y.1, y.2), st)
      rw [hy]
    | WeightedRoundRobin =>
      have hne : (st.upstreams.enum.filter fun iu => iu.2.healthy) ≠ [] := by
        intro hc
        rw [hc] at hlen
        exact hlen rfl
      obtain ⟨hd, tl, heq⟩ := List.exists_cons_of_ne_nil hne
      obtain ⟨hmem, hh⟩ := healthy_filter_mem (heq ▸ List.mem_cons_self hd tl)
      have hhead : (st.upstreams.enum.filter fun iu => iu.2.healthy).head? = some hd := by
        rw [heq]
        rfl
      refine ⟨hd.1, hd.2, st, ?_, hmem, hh, rfl, hst, rfl⟩
      show ((st.upstreams.enum.filter fun iu => iu.2.healthy).head?, st) =
        (some (hd.1, hd.2), st)
      rw [hhead]
    | Random =>
      set x := (st.upstreams.enum.filter fun iu => iu.2.healthy).get
        ⟨r % (st.upstreams.enum.filter fun iu => iu.2.healthy).length,
          Nat.mod_lt _ (Nat.pos_of_ne_zero hlen)⟩ with hx
      obtain ⟨hmem, hh⟩ := healthy_filter_mem (List.get_mem _ _ _ : x ∈ _)
      exact ⟨x.1, x.2, st, rfl, hmem, hh, rfl, hst, rfl⟩

/-- Updating one element through a projection-preserving function leaves
every projection of the list unchanged. -/
theorem list_modify_map_eq {β : Type} (g : Upstream → β) (f : Upstream → Upstream)
    (hf : ∀ u, g (f u) = g u) :
    ∀ (l : List Upstream) (i : Nat), (list_modify f l i).map g = l.map g := by
  intro l
  induction l with
  | nil => intro i; rfl
  | cons a as ih =>
    intro i
    cases i with
    | zero => simp [list_modify, hf]
    | succ n => simp [list_modify, ih n]

/-- One retry iteration, upstream-selection failure: abort at once. -/
theorem retry_go_cons_none {rand : Nat → Nat}
    {forward : Nat → String → Except ServerError HttpResponse} {mx a : Nat}
    {rest : List Nat} {st st1 : ProxyHandler} {le : Option ServerError}
    (hsel : select_upstream st (rand a) = (none, st1)) :
    handle_with_retry_go rand forward mx (a :: rest) st le =
      { result := .error (.ServiceUnavailable "No healthy upstreams available")
        forwards := [], sleeps := [] } := by
  rw [handle_with_retry_go, hsel]

/-- One retry iteration, forwarding success: return at once. -/
theorem retry_go_cons_some_ok {rand : Nat → Nat}
    {forward : Nat → String → Except ServerError HttpResponse} {mx a : Nat}
    {rest : List Nat} {st st1 : ProxyHandler} {le : Option ServerError}
    {idx : Nat} {u : Upstream} {resp : HttpResponse}
    (hsel : select_upstream st (rand a) = (some (idx, u), st1))
    (hfwd : forward a u.config.name = .ok resp) :
    handle_with_retry_go rand forward mx (a :: rest) st le =
      { result := .ok resp, forwards := [u.config.name], sleeps := [] } := by
  rw [handle_with_retry_go, hsel]
  simp only [hfwd]

/-- One retry iteration, forwarding failure: record the error, possibly
mark the upstream unhealthy, sleep unless this was the last attempt, and
continue with the remaining attempts. -/
theorem retry_go_cons_some_error {rand : Nat → Nat}
    {forward : Nat → String → Except ServerError HttpResponse} {mx a : Nat}
    {rest : List Nat} {st st1 : ProxyHandler} {le : Option ServerError}
    {idx : Nat} {u : Upstream} {e : ServerError}
    (hsel : select_upstream st (rand a) = (some (idx, u), st1))
    (hfwd : forward a u.config.name = .error e) :
    handle_with_retry_go rand forward mx (a :: rest) st le =
      { result := (handle_with_retry_go rand forward mx rest
          (if e = .Timeout then set_unhealthy (count_request st1 idx) idx
           else count_request st1 idx) (some e)).result
        forwards := u.config.name :: (handle_with_retry_go rand forward mx rest
          (if e = .Timeout then set_unhealthy (count_request st1 idx) idx
           else count_request st1 idx) (some e)).forwards
        sleeps := (if a < mx then [100 * 2 ^ a] else []) ++
          (handle_with_retry_go rand forward mx rest
            (if e = .Timeout then set_unhealthy (count_request st1 idx) idx
             else count_request st1 idx) (some e)).sleeps } := by
  rw [handle_with_retry_go, hsel]
  simp only [hfwd]

/-- Equal health projections transport the existence of a healthy
upstream. -/
theorem exists_healthy_of_map_eq {l l2 : List Upstream}
    (h : l2.map (fun u => u.healthy) = l.map (fun u => u.healthy)) :
    (∃ u ∈ l, u.healthy = true) → ∃ u ∈ l2, u.healthy = true := by
  rintro ⟨u, hu, hh⟩
  have hmem : true ∈ l.map (fun u => u.healthy) := List.mem_map.mpr ⟨u, hu, hh⟩
  rw [← h] at hmem
  obtain ⟨v, hv, hvh⟩ := List.mem_map.mp hmem
  exact ⟨v, hv, hvh⟩

/-- The error-branch state of one retry iteration keeps the upstream
names, and — when the error is not a Timeout — the health flags. -/
theorem retry_next_state_maps (st1 : ProxyHandler) (idx : Nat) (e : ServerError) :
    ((if e = .Timeout then set_unhealthy (count_request st1 idx) idx
      else count_request st1 idx).upstreams.map (fun u => u.config.name) =
        st1.upstreams.map (fun u => u.config.name)) ∧
    (e ≠ .Timeout →
      (if e = .Timeout then set_unhealthy (count_request st1 idx) idx
       else count_request st1 idx).upstreams.map (fun u => u.healthy) =
        st1.upstreams.map (fun u => u.healthy)) := by
  constructor
  · by_cases ht : e = .Timeout
    · rw [if_pos ht]
      show ((list_modify (fun u => { u with healthy := false })
        (count_request st1 idx).upstreams idx).map (fun u => u.config.name)) = _
      rw [list_modify_map_eq (fun u => u.config.name)
        (fun u => { u with healthy := false }) (fun u => rfl)]
      show ((list_modify (fun u => { u with request_count := u.request_count + 1 })
        st1.upstreams idx).map (fun u => u.config.name)) = _
      rw [list_modify_map_eq (fun u => u.config.name)
        (fun u => { u with request_count := u.request_count + 1 }) (fun u => rfl)]
    · rw [if_neg ht]
      show ((list_modify (fun u => { u with request_count := u.request_count + 1 })
        st1.upstreams idx).map (fun u => u.config.name)) = _
      rw [list_modify_map_eq (fun u => u.config.name)
        (fun u => { u with request_count := u.request_count + 1 }) (fun u => rfl)]
  · intro ht
    rw [if_neg ht]
    show ((list_modify (fun u => { u with request_count := u.request_count + 1 })
      st1.upstreams idx).map (fun u => u.healthy)) = _
    rw [list_modify_map_eq (fun u => u.healthy)
      (fun u => { u with request_count := u.request_count + 1 }) (fun u => rfl)]

/-- The forwarding trace never exceeds the number of attempts. -/
theorem retry_forwards_length_le (rand : Nat → Nat)
    (forward : Nat → String → Except ServerError HttpResponse) (mx : Nat) :
    ∀ (attempts : List Nat) (st : ProxyHandler) (le : Option ServerError),
      (handle_with_retry_go rand forward mx attempts st le).forwards.length ≤
        attempts.length := by
  intro attempts
  induction attempts with
  | nil => intro st le; simp [handle_with_retry_go]
  | cons a rest ih =>
    intro st le
    rcases hsel : select_upstream st (rand a) with ⟨o, st1⟩
    cases o with
    | none => rw [retry_go_cons_none hsel]; simp
    | some p =>
      rcases p with ⟨idx, u⟩
      cases hfwd : forward a u.config.name with
      | ok resp => rw [retry_go_cons_some_ok hsel hfwd]; simp
      | error e =>
        rw [retry_go_cons_some_error hsel hfwd]
        have := ih (if e = .Timeout then set_unhealthy (count_request st1 idx) idx
          else count_request st1 idx) (some e)
        simp only [List.length_cons, List.length_cons]
        omega

/-- Every name in the forwarding trace is the name of one of the
handler's upstreams. -/
theorem retry_forwards_names (rand : Nat → Nat)
    (forward : Nat → String → Except ServerError HttpResponse) (mx : Nat) :
    ∀ (attempts : List Nat) (st : ProxyHandler) (le : Option ServerError) (nm : String),
      nm ∈ (handle_with_retry_go rand forward mx attempts st le).forwards →
      nm ∈ st.upstreams.map (fun u => u.config.name) := by
  intro attempts
  induction attempts with
  | nil => intro st le nm h; simp [handle_with_retry_go] at h
  | cons a rest ih =>
    intro st le nm h
    rcases select_upstream_cases st (rand a) with ⟨hn, _⟩ | ⟨idx, u, st1, hs, hmem, _, hup, _, _⟩
    · rw [retry_go_cons_none hn] at h
      simp at h
    · cases hfwd : forward a u.config.name with
      | ok resp =>
        rw [retry_go_cons_some_ok hs hfwd] at h
        simp only [List.mem_singleton] at h
        subst h
        exact List.mem_map.mpr ⟨u, hmem, rfl⟩
      | error e =>
        rw [retry_go_cons_some_error hs hfwd] at h
        rcases List.mem_cons.mp h with rfl | hrest
        · exact List.mem_map.mpr ⟨u, hmem, rfl⟩
        · have hnames := (retry_next_state_maps st1 idx e).1
          have h2 := ih _ (some e) nm hrest
          rw [hnames, hup] at h2
          exact h2

/-- No sleep is performed on attempts at or past the retry limit. -/
theorem retry_no_sleep_past_max (rand : Nat → Nat)
    (forward : Nat → String → Except ServerError HttpResponse) (mx : Nat) :
    ∀ (attempts : List Nat) (st : ProxyHandler) (le : Option ServerError),
      (∀ j ∈ attempts, ¬ j < mx) →
      (handle_with_retry_go rand forward mx attempts st le).sleeps = [] := by
  intro attempts
  induction attempts with
  | nil => intro st le _; rfl
  | cons a rest ih =>
    intro st le hj
    rcases select_upstream_cases st (rand a) with ⟨hn, _⟩ | ⟨idx, u, st1, hs, _, _, _, _, _⟩
    · rw [retry_go_cons_none hn]
    · cases hfwd : forward a u.config.name with
      | ok resp => rw [retry_go_cons_some_ok hs hfwd]
      | error e =>
        rw [retry_go_cons_some_error hs hfwd]
        rw [if_neg (hj a (List.mem_cons_self _ _))]
        rw [ih _ (some e) (fun j hjr => hj j (List.mem_cons_of_mem _ hjr))]
        rfl

/-- The backoff sleeps always form the geometric sequence
`100 * 2 ^ a, 100 * 2 ^ (a + 1), ...` over an initial run of the
attempts. -/
theorem retry_sleeps_shape (rand : Nat → Nat)
    (forward : Nat → String → Except ServerError HttpResponse) (mx : Nat) :
    ∀ (k a : Nat) (st : ProxyHandler) (le : Option ServerError),
      ∃ n, (handle_with_retry_go rand forward mx (List.range' a k) st le).sleeps =
        (List.range' a n).map (fun j => 100 * 2 ^ j) := by
  intro k
  induction k with
  | zero => intro a st le; exact ⟨0, rfl⟩
  | succ k ih =>
    intro a st le
    rw [List.range'_succ]
    rcases select_upstream_cases st (rand a) with ⟨hn, _⟩ | ⟨idx, u, st1, hs, _, _, _, _, _⟩
    · rw [retry_go_cons_none hn]
      exact ⟨0, rfl⟩
    · cases hfwd : forward a u.config.name with
      | ok resp =>
        rw [retry_go_cons_some_ok hs hfwd]
        exact ⟨0, rfl⟩
      | error e =>
        rw [retry_go_cons_some_error hs hfwd]
        by_cases ha : a < mx
        · rw [if_pos ha]
          obtain ⟨n, hn⟩ := ih (a + 1)
            (if e = .Timeout then set_unhealthy (count_request st1 idx) idx
             else count_request st1 idx) (some e)
          refine ⟨n + 1, ?_⟩
          rw [hn, List.range'_succ]
          rfl
        · rw [if_neg ha]
          have hrest : (handle_with_retry_go rand forward mx (List.range' (a + 1) k)
              (if e = .Timeout then set_unhealthy (count_request st1 idx) idx
               else count_request st1 idx) (some e)).sleeps = [] := by
            apply retry_no_sleep_past_max
            intro j hjr
            have := List.mem_range'_1.mp hjr
            omega
          rw [hrest]
          exact ⟨0, rfl⟩

/-- The all-attempts-fail run: with a healthy upstream throughout (no
Timeout errors, so health flags never change) and every forward failing,
the loop makes exactly one attempt per attempt number, sleeps the full
geometric sequence, and returns the error observed on the last attempt. -/
theorem retry_all_fail (rand : Nat → Nat)
    (forward : Nat → String → Except ServerError HttpResponse)
    (errOf : Nat → String → ServerError) (mx : Nat)
    (hfail : ∀ j s, forward j s = .error (errOf j s))
    (hnt : ∀ j s, errOf j s ≠ .Timeout) :
    ∀ (k a : Nat) (st : ProxyHandler) (le : Option ServerError),
      a + (k + 1) = mx + 1 →
      (∃ u ∈ st.upstreams, u.healthy = true) →
      ∃ nm,
        (handle_with_retry_go rand forward mx (List.range' a (k + 1)) st le).forwards.getLast? =
          some nm ∧
        (handle_with_retry_go rand forward mx (List.range' a (k + 1)) st le).result =
          .error (errOf mx nm) ∧
        (handle_with_retry_go rand forward mx (List.range' a (k + 1)) st le).forwards.length =
          k + 1 ∧
        (handle_with_retry_go rand forward mx (List.range' a (k + 1)) st le).sleeps =
          (List.range' a k).map (fun j => 100 * 2 ^ j) := by
  intro k
  induction k with
  | zero =>
    intro a st le hak hh
    have ha : a = mx := by omega
    rcases select_upstream_cases st (rand a) with ⟨_, hall⟩ | ⟨idx, u, st1, hs, _, _, _, _, _⟩
    · obtain ⟨u, hu, hh2⟩ := hh
      rw [hall u hu] at hh2
      cases hh2
    · rw [List.range'_succ]
      rw [retry_go_cons_some_error hs (hfail a u.config.name)]
      rw [if_neg (hnt a u.config.name)]
      subst ha
      refine ⟨u.config.name, ?_, ?_, ?_, ?_⟩
      · rfl
      · rfl
      · rfl
      · rw [if_neg (lt_irrefl a)]
        rfl
  | succ k ih =>
    intro a st le hak hh
    have ha : a < mx := by omega
    rcases select_upstream_cases st (rand a) with ⟨_, hall⟩ | ⟨idx, u, st1, hs, _, _, hup, _, _⟩
    · obtain ⟨u, hu, hh2⟩ := hh
      rw [hall u hu] at hh2
      cases hh2
    · rw [List.range'_succ]
      rw [retry_go_cons_some_error hs (hfail a u.config.name)]
      rw [if_neg (hnt a u.config.name)]
      have hh3 : ∃ v ∈ (count_request st1 idx).upstreams, v.healthy = true := by
        refine exists_healthy_of_map_eq ?_ (hup ▸ hh)
        have := (retry_next_state_maps st1 idx (errOf a u.config.name)).2
          (hnt a u.config.name)
        rw [if_neg (hnt a u.config.name)] at this
        exact this
      obtain ⟨nm, hlast, hres, hlen, hsl⟩ :=
        ih (a + 1) (count_request st1 idx) (some (errOf a u.config.name)) (by omega) hh3
      refine ⟨nm, ?_, ?_, ?_, ?_⟩
      · cases hrf : (handle_with_retry_go rand forward mx (List.range' (a + 1) (k + 1))
            (count_request st1 idx) (some (errOf a u.config.name))).forwards with
        | nil => rw [hrf] at hlen; cases hlen
        | cons b bl =>
          show (u.config.name :: b :: bl).getLast? = some nm
          rw [List.getLast?_cons_cons]
          rw [← hrf, hlast]
      · exact hres
      · show (handle_with_retry_go rand forward mx (List.range' (a + 1) (k + 1))
            (count_request st1 idx) (some (errOf a u.config.name))).forwards.length + 1 =
          k + 1 + 1
        rw [hlen]
      · rw [if_pos ha, hsl, List.range'_succ]
        rfl

/-- C7: the proxy makes at most `1 + retry_attempts` forwarding attempts
(`retry_attempts` from configuration, defaulting to 3), its waits between
consecutive attempts are `100 * 2 ^ attempt` milliseconds, every attempt
goes to one of the configured upstreams (reselected each attempt), and —
when at least one upstream stays healthy (no Timeout marks any unhealthy)
and every attempt fails — exactly `1 + retry_attempts` attempts are made,
the full backoff sequence is slept, and the error observed on the last
attempt is the one returned. -/
theorem retry_policy (h : ProxyHandler) (rand : Nat → Nat)
    (forward : Nat → String → Except ServerError HttpResponse)
    (errOf : Nat → String → ServerError) :
    (handle_with_retry h rand forward).forwards.length ≤
      h.config.retry_attempts.getD 3 + 1 ∧
    (∃ n, (handle_with_retry h rand forward).sleeps =
      (List.range n).map (fun k => 100 * 2 ^ k)) ∧
    (∀ nm ∈ (handle_with_retry h rand forward).forwards,
      nm ∈ h.upstreams.map (fun u => u.config.name)) ∧
    ((∀ j s, forward j s = .error (errOf j s)) →
      (∀ j s, errOf j s ≠ .Timeout) →
      (∃ u ∈ h.upstreams, u.healthy = true) →
      ∃ nm,
        (handle_with_retry h rand forward).forwards.getLast? = some nm ∧
        (handle_with_retry h rand forward).result =
          .error (errOf (h.config.retry_attempts.getD 3) nm) ∧
        (handle_with_retry h rand forward).forwards.length =
          h.config.retry_attempts.getD 3 + 1 ∧
        (handle_with_retry h rand forward).sleeps =
          (List.range (h.config.retry_attempts.getD 3)).map (fun k => 100 * 2 ^ k)) := by
  refine ⟨?_, ?_, ?_, ?_⟩
  · rw [handle_with_retry]
    have := retry_forwards_length_le rand forward (h.config.retry_attempts.getD 3)
      (List.range (h.config.retry_attempts.getD 3 + 1)) h none
    rwa [List.length_range] at this
  · rw [handle_with_retry, List.range_eq_range']
    obtain ⟨n, hn⟩ := retry_sleeps_shape rand forward (h.config.retry_attempts.getD 3)
      (h.config.retry_attempts.getD 3 + 1) 0 h none
    exact ⟨n, by rw [hn, List.range_eq_range']⟩
  · rw [handle_with_retry]
    intro nm hnm
    exact retry_forwards_names rand forward (h.config.retry_attempts.getD 3) _ h none nm hnm
  · intro hfail hnt hh
    rw [handle_with_retry, List.range_eq_range']
    obtain ⟨nm, h1, h2, h3, h4⟩ := retry_all_fail rand forward errOf
      (h.config.retry_attempts.getD 3) hfail hnt
      (h.config.retry_attempts.getD 3) 0 h none (by omega) hh
    exact ⟨nm, h1, h2, h3, by rw [h4, List.range_eq_range']⟩
